import Mathlib

/-!
Verification development for the warp-server query-to-SQL compilation engine.

The definitions below are a shallow embedding of the repository's source:
the fluent query builder (src/features/orm/query.ts) and the MySQL
database adapter (src/adapters/database/mysql/index.ts).  Helper modules
that the source imports but that are not part of the repository snapshot
(utils/key-map, utils/constraint-map, utils/compound-key, utils/constants,
features/orm/relation, features/orm/query-mapper, the low-level mysql
client) are modelled from the specification's description of their
behaviour; each such definition carries a doc comment saying so.
-/

namespace WarpSpec

/-- Dynamic JavaScript values as they flow through the engine: row cell
values, write payload values, and constraint values.  `vquery` is the
compiled-options view of a `Query` object stored as a sub-query constraint
value: source (table, alias), columns (physical key, output alias),
relations (alias, relation table, parent key, child key), and the
flattened constraint entries (key, constraint kind, value). -/
inductive Value where
  | vnull : Value
  | vint : Int → Value
  | vstr : String → Value
  | vbool : Bool → Value
  | vlist : List Value → Value
  | vobj : List (String × Value) → Value
  | vquery : (String × String) → List (String × String) →
      List (String × String × String × String) →
      List (String × String × Value) → Value

/-- Modelled from the spec: utils/key-map is not under src/.  §3: "ordered
sequence of (key, value) pairs, keys unique, insertion order preserved.
Operations: set (insert-or-overwrite, preserving original position on
overwrite), get, remove, enumerate as ordered pairs, list of keys, list
of values." -/
structure KeyMap where
  entries : List (String × Value)

/-- Insert-or-overwrite on an ordered association list, preserving the
original position on overwrite (the shared semantics of `KeyMap.set` and
of JS property assignment on an object literal). -/
def assocSet (l : List (String × Value)) (k : String) (v : Value) :
    List (String × Value) :=
  if l.any (fun p => p.1 = k) then
    l.map (fun p => if p.1 = k then (k, v) else p)
  else l ++ [(k, v)]

namespace KeyMap

def empty : KeyMap := ⟨[]⟩

def has (m : KeyMap) (k : String) : Bool :=
  m.entries.any (fun p => p.1 = k)

def set (m : KeyMap) (k : String) (v : Value) : KeyMap :=
  ⟨assocSet m.entries k v⟩

def get (m : KeyMap) (k : String) : Option Value :=
  (m.entries.find? (fun p => p.1 = k)).map (fun p => p.2)

def keys (m : KeyMap) : List String := m.entries.map (fun p => p.1)

def values (m : KeyMap) : List Value := m.entries.map (fun p => p.2)

def toArray (m : KeyMap) : List (String × Value) := m.entries

end KeyMap

/-- Split a character list at every occurrence of the separator character
(the computable core of the JavaScript `String.prototype.split` with a
one-character separator; `acc` holds the current segment reversed). -/
def splitCharsAux (sep : Char) : List Char → List Char → List (List Char)
  | [], acc => [acc.reverse]
  | c :: rest, acc =>
      if c = sep then acc.reverse :: splitCharsAux sep rest []
      else splitCharsAux sep rest (c :: acc)

/-- JavaScript `s.split(sep)` for a one-character separator. -/
def splitString (s : String) (sep : Char) : List String :=
  (splitCharsAux sep s.data []).map (fun cs => String.mk cs)

/-- The character-level body of the MySQL literal escaping: backslashes
and single quotes are backslash-escaped. -/
def escapeChars : List Char → List Char
  | [] => []
  | c :: rest =>
      if c = '\\' then '\\' :: '\\' :: escapeChars rest
      else if c = '\'' then '\\' :: '\'' :: escapeChars rest
      else c :: escapeChars rest

/-- Modelled from the spec: the low-level mysql client
(adapters/database/mysql/client) is not under src/.  §4.2: "values are
escaped with a dialect-specific literal-escaping function that must
neutralize quote/backslash/control characters"; backslashes and single
quotes are backslash-escaped as in the MySQL dialect. -/
def escapeStringBody (s : String) : String :=
  String.mk (escapeChars s.data)

/-- Modelled from the spec (see `escapeStringBody`): the client's literal
value escaping.  Strings are wrapped in single quotes with their body
neutralized; numbers and booleans render as bare literals; null renders as
the NULL keyword.  Objects and lists do not reach this function in any of
the verified paths. -/
def clientEscape : Value → String
  | .vnull => "NULL"
  | .vint n => toString n
  | .vstr s => "'" ++ escapeStringBody s ++ "'"
  | .vbool b => if b then "true" else "false"
  | .vlist _ => "NULL"
  | .vobj _ => "NULL"
  | .vquery _ _ _ _ => "NULL"

/-- Back-quote a single identifier part (MySQL identifier quoting). -/
def backquote (s : String) : String := "`" ++ s ++ "`"

/-- Modelled from the spec: the low-level client's identifier escaping
(§4.2 "identifiers are escaped with a dialect-specific identifier-quoting
function").  A qualified name `a.b` quotes each part; with `useRaw` the
whole name is quoted as one identifier (used for output aliases that
legitimately contain the relation separator dot). -/
def clientEscapeKey (key : String) (useRaw : Bool) : String :=
  if useRaw then backquote key
  else String.intercalate "." ((splitString key '.').map backquote)

/-! Modelled from the spec: utils/compound-key is not under src/.  §3: a
key is compound "when it denotes a concatenation of several physical
columns (detected structurally)"; the builder joins several keys with the
separator `|` (query.ts `contains`/`containsEither`/`containsAll`). -/

namespace CompoundKey

def Delimiter : Char := '|'

def isUsedBy (key : String) : Bool :=
  (splitString key Delimiter).length > 1

def fromKey (key : String) : List String :=
  splitString key Delimiter

end CompoundKey

/-- Translated from `escapeKey` (mysql/index.ts:68-74): a compound key
becomes a CONCAT over its client-escaped parts (the JS template
interpolation of the mapped array joins the parts with a bare comma);
otherwise the client escaping applies directly. -/
def escapeKey (key : String) (useRaw : Bool) : String :=
  if CompoundKey.isUsedBy key then
    "CONCAT(" ++
      String.intercalate "," ((CompoundKey.fromKey key).map
        (fun k => clientEscapeKey k false)) ++ ")"
  else clientEscapeKey key useRaw

/-! Modelled from the spec: utils/constraint-map is not under src/.  The
`Constraints` enumeration's members are named in query.ts and
mysql/index.ts; their concrete string values are internal, so the member
names themselves are used as values (only distinctness and the
builder/compiler agreement matter). -/

namespace Constraints

@[match_pattern] def EqualTo : String := "equalTo"
@[match_pattern] def NotEqualTo : String := "notEqualTo"
@[match_pattern] def GreaterThan : String := "greaterThan"
@[match_pattern] def GreaterThanOrEqualTo : String := "greaterThanOrEqualTo"
@[match_pattern] def LessThan : String := "lessThan"
@[match_pattern] def LessThanOrEqualTo : String := "lessThanOrEqualTo"
@[match_pattern] def Exists : String := "exists"
@[match_pattern] def ContainedIn : String := "containedIn"
@[match_pattern] def NotContainedIn : String := "notContainedIn"
@[match_pattern] def ContainedInOrDoesNotExist : String := "containedInOrDoesNotExist"
@[match_pattern] def StartsWith : String := "startsWith"
@[match_pattern] def EndsWith : String := "endsWith"
@[match_pattern] def Contains : String := "contains"
@[match_pattern] def ContainsEither : String := "containsEither"
@[match_pattern] def ContainsAll : String := "containsAll"
@[match_pattern] def FoundIn : String := "foundIn"
@[match_pattern] def FoundInEither : String := "foundInEither"
@[match_pattern] def FoundInAll : String := "foundInAll"
@[match_pattern] def NotFoundIn : String := "notFoundIn"
@[match_pattern] def NotFoundInEither : String := "notFoundInEither"
@[match_pattern] def NotFoundInAll : String := "notFoundInAll"

end Constraints

/-- Error codes named in the source (utils/error is not under src/; the
code names `Error.Code.MissingConfiguration`, `Error.Code.InvalidObjectKey`
and `Error.Code.ForbiddenOperation` appear literally in query.ts and
mysql/index.ts; `validationFailed` stands for the error thrown by the
`enforce` argument validator). -/
inductive ErrCode where
  | missingConfiguration : ErrCode
  | invalidObjectKey : ErrCode
  | forbiddenOperation : ErrCode
  | validationFailed : ErrCode
deriving DecidableEq, Repr

/-- The keys present in the adapter's `constraints` fragment-generator
object (mysql/index.ts:23-44), in source order.  Note the object has no
entry for `Constraints.NotFoundInAll`. -/
def constraintMatrixKinds : List String :=
  [ Constraints.EqualTo, Constraints.NotEqualTo, Constraints.GreaterThan,
    Constraints.GreaterThanOrEqualTo, Constraints.LessThan,
    Constraints.LessThanOrEqualTo, Constraints.Exists,
    Constraints.ContainedIn, Constraints.NotContainedIn,
    Constraints.ContainedInOrDoesNotExist, Constraints.StartsWith,
    Constraints.EndsWith, Constraints.Contains, Constraints.ContainsEither,
    Constraints.ContainsAll, Constraints.FoundIn,
    Constraints.FoundInEither, Constraints.FoundInAll,
    Constraints.NotFoundIn, Constraints.NotFoundInEither ]

/-- The `typeof this.constraints[constraint] !== 'undefined'` test of
`parseConstraint` (mysql/index.ts:106): membership among the fragment
object's keys. -/
def constraintDefined (c : String) : Bool :=
  constraintMatrixKinds.contains c

/-- JavaScript truthiness of a constraint value, as used by the `Exists`
fragment's `v ? ... : ...` test. -/
def truthy : Value → Bool
  | .vnull => false
  | .vint n => n ≠ 0
  | .vstr s => s ≠ ""
  | .vbool b => b
  | .vlist _ => true
  | .vobj _ => true
  | .vquery _ _ _ _ => true

/-- JavaScript string interpolation of a value, as used by the template
literals in the LIKE-family fragments. -/
def jsString : Value → String
  | .vnull => "null"
  | .vint n => toString n
  | .vstr s => s
  | .vbool b => if b then "true" else "false"
  | .vlist _ => ""
  | .vobj _ => "[object Object]"
  | .vquery _ _ _ _ => "[object Object]"

/-- Translated from `regularEscape` (mysql/index.ts:76-89).  The special
`Increment`/`JsonAction` wrapper wiring concerns classes that are not part
of the verified claims; for plain values the function is the client's
literal escaping. -/
def regularEscape (v : Value) : String := clientEscape v

/-- The list view a fragment generator takes of an array value (JS `v.map`
is only ever applied to arrays in the verified paths). -/
def asList : Value → List Value
  | .vlist l => l
  | _ => []

/-- Translated from `collectionEscape` (mysql/index.ts:91-93). -/
def collectionEscape (v : Value) : String :=
  String.intercalate ", " ((asList v).map regularEscape)

mutual

/-- Translated from `parseConstraint` (mysql/index.ts:101-113): escape the
key, look the constraint kind up in the fragment-generator object, apply
the matching generator, and otherwise throw a forbidden-operation error. -/
def parseConstraint (key : String) (constraint : String) (value : Value) :
    Except ErrCode String :=
  let escapedKey := escapeKey key false
  if constraintDefined constraint then
    applyConstraint constraint escapedKey value
  else
    .error .forbiddenOperation
termination_by (sizeOf value, 3)

/-- Translated from the `constraints` fragment-generator object
(mysql/index.ts:23-44), one branch per entry, applied to the already
escaped key `k` and the raw constraint value `v`.  The final branch is
unreachable under the `constraintDefined` guard of `parseConstraint`. -/
def applyConstraint (c : String) (k : String) (v : Value) :
    Except ErrCode String :=
  match c with
  | Constraints.EqualTo => .ok (k ++ " = " ++ regularEscape v)
  | Constraints.NotEqualTo => .ok (k ++ " <> " ++ regularEscape v)
  | Constraints.GreaterThan => .ok (k ++ " > " ++ regularEscape v)
  | Constraints.GreaterThanOrEqualTo => .ok (k ++ " >= " ++ regularEscape v)
  | Constraints.LessThan => .ok (k ++ " < " ++ regularEscape v)
  | Constraints.LessThanOrEqualTo => .ok (k ++ " <= " ++ regularEscape v)
  | Constraints.Exists =>
      .ok (k ++ " " ++ (if truthy v then "IS NOT NULL" else "IS NULL"))
  | Constraints.ContainedIn =>
      .ok (k ++ " IN (" ++ collectionEscape v ++ ")")
  | Constraints.NotContainedIn =>
      .ok (k ++ " NOT IN (" ++ collectionEscape v ++ ")")
  | Constraints.ContainedInOrDoesNotExist =>
      .ok ("(" ++ k ++ " IS NULL OR " ++ k ++ " IN (" ++ collectionEscape v ++ "))")
  | Constraints.StartsWith =>
      .ok (k ++ " LIKE " ++ regularEscape (.vstr (jsString v ++ "%")))
  | Constraints.EndsWith =>
      .ok (k ++ " LIKE " ++ regularEscape (.vstr ("%" ++ jsString v)))
  | Constraints.Contains =>
      .ok (k ++ " LIKE " ++ regularEscape (.vstr ("%" ++ jsString v ++ "%")))
  | Constraints.ContainsEither =>
      .ok ("(" ++ String.intercalate " OR "
        ((asList v).map
          (fun i => k ++ " LIKE " ++ regularEscape (.vstr ("%" ++ jsString i ++ "%")))) ++ ")")
  | Constraints.ContainsAll =>
      .ok ("(" ++ String.intercalate " AND "
        ((asList v).map
          (fun i => k ++ " LIKE " ++ regularEscape (.vstr ("%" ++ jsString i ++ "%")))) ++ ")")
  | Constraints.FoundIn => do
      let s ← subqueryEscape v
      .ok (k ++ " IN (" ++ s ++ ")")
  | Constraints.FoundInEither =>
      (match v with
      | .vlist l => do
          let fs ← foundInFrags false k l
          .ok ("(" ++ String.intercalate " OR " fs ++ ")")
      | _ => .error .validationFailed)
  | Constraints.FoundInAll =>
      (match v with
      | .vlist l => do
          let fs ← foundInFrags false k l
          .ok ("(" ++ String.intercalate " AND " fs ++ ")")
      | _ => .error .validationFailed)
  | Constraints.NotFoundIn => do
      let s ← subqueryEscape v
      .ok (k ++ " NOT IN (" ++ s ++ ")")
  | Constraints.NotFoundInEither =>
      (match v with
      | .vlist l => do
          let fs ← foundInFrags true k l
          .ok ("(" ++ String.intercalate " AND " fs ++ ")")
      | _ => .error .validationFailed)
  | _ => .error .forbiddenOperation
termination_by (sizeOf v, 2)

/-- The per-item fragments of the `FoundInEither`/`FoundInAll`/
`NotFoundInEither` generators: `k IN (<compiled sub-query>)` (or `NOT IN`
when `neg`), one per listed sub-query. -/
def foundInFrags (neg : Bool) (k : String) (l : List Value) :
    Except ErrCode (List String) :=
  match l with
  | [] => .ok []
  | i :: rest => do
      let s ← subqueryEscape i
      let restFrags ← foundInFrags neg k rest
      .ok ((k ++ (if neg then " NOT IN (" else " IN (") ++ s ++ ")") :: restFrags)
termination_by (sizeOf l, 2)

/-- Translated from `subqueryEscape` (mysql/index.ts:95-99): read the
stored query's compiled options (source, columns, relations, constraints)
and build its find clause. -/
def subqueryEscape (v : Value) : Except ErrCode String :=
  match v with
  | .vquery src cols rels entries => getFindClause src cols rels entries
  | _ => .error .validationFailed
termination_by (sizeOf v, 1)

/-- Translated from `getFindClause` (mysql/index.ts:126-155): the column
list rendered as `escapedKey AS escapedAlias` (alias escaped raw), the
source rendered as `escapedTable AS escapedAlias`, one LEFT OUTER JOIN
per relation, and the parsed constraints joined with AND. -/
def getFindClause (source : String × String) (columns : List (String × String))
    (relations : List (String × String × String × String))
    (entries : List (String × String × Value)) : Except ErrCode String := do
  let select := columns.map
    (fun p => escapeKey p.1 false ++ " AS " ++ escapeKey p.2 true)
  let fromPart := escapeKey source.1 false ++ " AS " ++ escapeKey source.2 false
  let joins := relations.map
    (fun r => "LEFT OUTER JOIN " ++ escapeKey r.2.1 false ++ " AS " ++
      escapeKey r.1 true ++ " ON " ++ escapeKey r.2.2.1 false ++ " = " ++
      escapeKey r.2.2.2 false)
  let w ← parseEntries entries
  .ok ("SELECT " ++ String.intercalate ", " select ++ " FROM " ++ fromPart ++
    " " ++ String.intercalate "\n" joins ++ " WHERE " ++
    String.intercalate " AND " w)
termination_by (sizeOf entries, 1)

/-- The flattened constraint entries compiled one by one (the
`constraints.toArray().reduce(...).map(parseConstraint)` pipeline of
`getFindClause`); a thrown error propagates. -/
def parseEntries (entries : List (String × String × Value)) :
    Except ErrCode (List String) :=
  match entries with
  | [] => .ok []
  | (key, c, value) :: rest => do
      let s ← parseConstraint key c value
      let restS ← parseEntries rest
      .ok (s :: restS)
termination_by (sizeOf entries, 0)

end

/-! The schema registry boundary.  Modelled from the spec:
features/orm/class and its definition manager are not under src/.  §6:
"given a class/table identifier, returns declared scalar keys, declared
relation keys (with target table + join columns), and declared timestamp
keys.  Queried by key-existence checks in the builder and by
default-selection computation." -/

/-- One declared relation: the relation key name on the parent class, the
target table, the target's declared output columns, and the two join
columns (§3 "Relation descriptor"). -/
structure RelDef where
  name : String
  targetSource : String
  cols : List String
  parentKey : String
  childKey : String

/-- The schema-description value for one class (§6 schema registry). -/
structure ClassSchema where
  className : String
  source : String
  keys : List String
  timestamps : List String
  relations : List RelDef

/-! Modelled from the spec: utils/constants is not under src/; the
identifier and timestamp key names are internal constants (their exact
spelling is immaterial, only distinctness matters). -/

namespace InternalKeys

def Id : String := "id"

end InternalKeys

/-- Modelled from the spec (utils/constants is not under src/). -/
def InternalId : String := InternalKeys.Id

/-- Modelled from the spec (utils/constants is not under src/). -/
def CreatedAt : String := "created_at"

/-- Modelled from the spec (utils/constants is not under src/). -/
def UpdatedAt : String := "updated_at"

/-- Modelled from the spec (utils/constants is not under src/). -/
def DeletedAt : String := "deleted_at"

/-- Modelled from the spec (package.json is not under src/; the version
string only appears in the trailing statement comment, §4.2). -/
def version : String := "0.0.0"

/-- A key declared directly on the class: the identifier, a scalar key, a
timestamp key, or a relation key. -/
def ClassSchema.hasDirect (s : ClassSchema) (k : String) : Bool :=
  k = InternalKeys.Id || s.keys.contains k || s.timestamps.contains k ||
    (s.relations.map RelDef.name).contains k

/-- Modelled from the spec: the `Class.has` key-existence check used by
every builder validation (§4.1).  A compound key (several keys joined with
the separator, §4.1 "contains family") exists when each of its parts
does. -/
def ClassSchema.has (s : ClassSchema) (k : String) : Bool :=
  if CompoundKey.isUsedBy k then (CompoundKey.fromKey k).all s.hasDirect
  else s.hasDirect k

/-- Modelled from the spec: utils/constraint-map is not under src/.  §3:
"ordered mapping from key → ordered list of constraint entries
{constraint-kind, value}.  ...  every `set` call appends". -/
structure ConstraintMap where
  groups : List (String × List (String × Value))

namespace ConstraintMap

def empty : ConstraintMap := ⟨[]⟩

def set (m : ConstraintMap) (key constraint : String) (value : Value) :
    ConstraintMap :=
  if m.groups.any (fun g => g.1 = key) then
    ⟨m.groups.map (fun g =>
      if g.1 = key then (g.1, g.2 ++ [(constraint, value)]) else g)⟩
  else
    ⟨m.groups ++ [(key, [(constraint, value)])]⟩

/-- The `constraints.toArray().reduce(...)` flattening of getFindClause
(mysql/index.ts:147-149): all entries of the first key in order, then the
second key, and so on. -/
def toFlatArray (m : ConstraintMap) : List (String × String × Value) :=
  m.groups.flatMap (fun g => g.2.map (fun cv => (g.1, cv.1, cv.2)))

end ConstraintMap

/-- The JS heap for the sort-token arrays: `Defaults.Query.Sort` is a
module-level array object and `Array.prototype.push` mutates an array in
place, so arrays live in a store and queries hold references into it. -/
abbrev SortStore := List (List String)

/-- The reference every Query instance's `sorting` field receives.
Modelled from the spec: utils/constants is not under src/; as a standard
plain-object constant export, `Defaults.Query.Sort` is one array object
allocated at module load, and the field initializer
`private sorting: Array<string> = Defaults.Query.Sort` (query.ts:17)
copies the reference, not the array. -/
def defaultSortRef : Nat := 0

/-- The store at module load: only the `Defaults.Query.Sort` array, with
whatever default sort tokens the constants module declares. -/
def initStore (defaultSort : List String) : SortStore := [defaultSort]

/-- Push onto the array at reference `i` (JS `this.sorting.push(key)`). -/
def storePush (st : SortStore) (i : Nat) (item : String) : SortStore :=
  st.set i (st.getD i [] ++ [item])

/-- The mutable state of one `Query` instance (query.ts:13-19); `sorting`
is a reference into the `SortStore` (see `defaultSortRef`), the other
fields are instance-owned. -/
structure QueryState where
  classSchema : ClassSchema
  selection : List String
  included : List String
  constraints : ConstraintMap
  sortingRef : Nat
  skipped : Int
  limitation : Int

/-- A fresh `new Query(classType)` (query.ts:21-23 plus the field
initializers; skip and limit defaults modelled from the spec, their exact
numbers are immaterial to the claims). -/
def newQuery (schema : ClassSchema) : QueryState :=
  { classSchema := schema, selection := [], included := [],
    constraints := ConstraintMap.empty, sortingRef := defaultSortRef,
    skipped := 0, limitation := 100 }

namespace Query

/-- Translated from the private `set` (query.ts:31-45): validate the key
against the schema — note the thrown code is `Error.Code.ForbiddenOperation`
— then append to the constraint map.  (The `Date` normalization concerns a
value shape outside this model.) -/
def set (q : QueryState) (key constraint : String) (value : Value) :
    Except ErrCode QueryState :=
  if ¬ q.classSchema.has key then .error .forbiddenOperation
  else .ok { q with constraints := q.constraints.set key constraint value }

/-- Translated from `equalTo` (query.ts:56-60): booleans normalize to
1/0. -/
def equalTo (q : QueryState) (key : String) (value : Value) :
    Except ErrCode QueryState :=
  let value := match value with
    | .vbool b => .vint (if b then 1 else 0)
    | v => v
  set q key Constraints.EqualTo value

/-- Translated from `notEqualTo` (query.ts:67-71). -/
def notEqualTo (q : QueryState) (key : String) (value : Value) :
    Except ErrCode QueryState :=
  let value := match value with
    | .vbool b => .vint (if b then 1 else 0)
    | v => v
  set q key Constraints.NotEqualTo value

/-- Translated from `greaterThan` (query.ts:78-81). -/
def greaterThan (q : QueryState) (key : String) (value : Value) :
    Except ErrCode QueryState :=
  set q key Constraints.GreaterThan value

/-- Translated from `lessThan` (query.ts:98-101). -/
def lessThan (q : QueryState) (key : String) (value : Value) :
    Except ErrCode QueryState :=
  set q key Constraints.LessThan value

/-- Translated from `exists` (query.ts:118-121). -/
def queryExists (q : QueryState) (key : String) : Except ErrCode QueryState :=
  set q key Constraints.Exists (.vbool true)

/-- Translated from `doesNotExist` (query.ts:128-131). -/
def doesNotExist (q : QueryState) (key : String) : Except ErrCode QueryState :=
  set q key Constraints.Exists (.vbool false)

/-- Translated from `containedIn` (query.ts:138-141). -/
def containedIn (q : QueryState) (key : String) (value : List Value) :
    Except ErrCode QueryState :=
  set q key Constraints.ContainedIn (.vlist value)

/-- The `string | string[]` key argument of the contains family. -/
inductive KeyArg where
  | one : String → KeyArg
  | many : List String → KeyArg

/-- The `if(key instanceof Array) key = key.join('|')` normalization of
`contains`/`containsEither`/`containsAll` (query.ts:189,200,211). -/
def joinKeyArg : KeyArg → String
  | .one s => s
  | .many l => String.intercalate "|" l

/-- Translated from `contains` (query.ts:188-192). -/
def contains (q : QueryState) (key : KeyArg) (value : String) :
    Except ErrCode QueryState :=
  set q (joinKeyArg key) Constraints.Contains (.vstr value)

/-- Translated from `containsEither` (query.ts:199-203). -/
def containsEither (q : QueryState) (key : KeyArg) (value : List String) :
    Except ErrCode QueryState :=
  set q (joinKeyArg key) Constraints.ContainsEither
    (.vlist (value.map Value.vstr))

/-- Translated from `containsAll` (query.ts:210-214). -/
def containsAll (q : QueryState) (key : KeyArg) (value : List String) :
    Except ErrCode QueryState :=
  set q (joinKeyArg key) Constraints.ContainsAll
    (.vlist (value.map Value.vstr))

/-- One argument of the variadic `select`/`include`/`sortBy` surface: a
string key, or an array of string keys. -/
inductive SelArg where
  | str : String → SelArg
  | arr : List String → SelArg

/-- The `keys[0] instanceof Array ? keys[0] : keys` normalization shared
by `select`, `include`, `sortBy` and `sortByDescending`. -/
def selKeyList (keys : List SelArg) : List SelArg :=
  match keys with
  | .arr l :: _ => l.map SelArg.str
  | _ => keys

/-- The `select` loop (query.ts:308-317): each key is enforced to be a
string (an array in a string position fails the `enforce` validator),
checked against the schema — `Error.Code.InvalidObjectKey` otherwise —
and pushed onto the accumulated selection. -/
def selectLoop (schema : ClassSchema) (sel : List String) :
    List SelArg → Except ErrCode (List String)
  | [] => .ok sel
  | .arr _ :: _ => .error .validationFailed
  | .str k :: rest =>
      if ¬ schema.has k then .error .invalidObjectKey
      else selectLoop schema (sel ++ [k]) rest

/-- Translated from `select` (query.ts:300-320): a zero-argument call
fails with `Error.Code.MissingConfiguration`; otherwise the (possibly
array-wrapped) key list is validated and appended. -/
def select (q : QueryState) (keys : List SelArg) :
    Except ErrCode QueryState :=
  if keys.length = 0 then .error .missingConfiguration
  else do
    let newSel ← selectLoop q.classSchema q.selection (selKeyList keys)
    .ok { q with selection := newSel }

/-- The `include` loop (query.ts:335-343), same shape as `selectLoop`. -/
def includeLoop (schema : ClassSchema) (inc : List String) :
    List SelArg → Except ErrCode (List String)
  | [] => .ok inc
  | .arr _ :: _ => .error .validationFailed
  | .str k :: rest =>
      if ¬ schema.has k then .error .invalidObjectKey
      else includeLoop schema (inc ++ [k]) rest

/-- Translated from `include` (query.ts:329-345; `include` is a reserved
word in Lean, hence the name).  (The `if(!keys)` guard of the source can
never fire: a rest parameter is always an array.) -/
def includeKeys (q : QueryState) (keys : List SelArg) :
    Except ErrCode QueryState := do
  let newInc ← includeLoop q.classSchema q.included (selKeyList keys)
  .ok { q with included := newInc }

/-- JS `key[0] === '-'` (false on the empty string, whose `key[0]` is
undefined). -/
def headIsDash (s : String) : Bool :=
  match s.data with
  | c :: _ => c = '-'
  | [] => false

/-- JS `key.substr(1)`. -/
def dropFirst (s : String) : String := String.mk s.data.tail

/-- The `sortBy` loop (query.ts:357-368): a leading `-` is stripped before
the schema check, the token is pushed as given (ascending keeps the bare
key).  Each iteration pushes into the shared array in the store. -/
def sortByLoop (schema : ClassSchema) (st : SortStore) (ref : Nat) :
    List SelArg → Except ErrCode SortStore
  | [] => .ok st
  | .arr _ :: _ => .error .validationFailed
  | .str key :: rest =>
      let rawKey := if headIsDash key then dropFirst key else key
      if ¬ schema.has rawKey then .error .invalidObjectKey
      else sortByLoop schema (storePush st ref key) ref rest

/-- Translated from `sortBy` (query.ts:351-370).  The Query instance
itself is returned unchanged: `sortBy` only pushes into the array its
`sorting` field refers to. -/
def sortBy (st : SortStore) (q : QueryState) (keys : List SelArg) :
    Except ErrCode (SortStore × QueryState) := do
  let st ← sortByLoop q.classSchema st q.sortingRef (selKeyList keys)
  .ok (st, q)

/-- The `sortByDescending` loop (query.ts:382-390): the key is checked as
given and pushed with a `-` prefixed. -/
def sortByDescendingLoop (schema : ClassSchema) (st : SortStore) (ref : Nat) :
    List SelArg → Except ErrCode SortStore
  | [] => .ok st
  | .arr _ :: _ => .error .validationFailed
  | .str key :: rest =>
      if ¬ schema.has key then .error .invalidObjectKey
      else sortByDescendingLoop schema (storePush st ref ("-" ++ key)) ref rest

/-- Translated from `sortByDescending` (query.ts:376-392). -/
def sortByDescending (st : SortStore) (q : QueryState) (keys : List SelArg) :
    Except ErrCode (SortStore × QueryState) := do
  let st ← sortByDescendingLoop q.classSchema st q.sortingRef (selKeyList keys)
  .ok (st, q)

/-- Translated from `skip` (query.ts:398-402): `enforce` requires a number
greater than or equal to 0. -/
def skip (q : QueryState) (value : Int) : Except ErrCode QueryState :=
  if value < 0 then .error .validationFailed
  else .ok { q with skipped := value }

/-- Translated from `limit` (query.ts:408-412). -/
def limit (q : QueryState) (value : Int) : Except ErrCode QueryState :=
  if value < 0 then .error .validationFailed
  else .ok { q with limitation := value }

/-- Translated from `toSubquery` (query.ts:418-422): destructively clear
the selection, then `select` the single given key. -/
def toSubquery (q : QueryState) (selectKey : String) :
    Except ErrCode QueryState :=
  select { q with selection := [] } [.str selectKey]

/-- Translated from `getSelection` (query.ts:440-450): the explicit
selection when non-empty, else identifier + declared keys + timestamps;
included relation keys are always appended. -/
def getSelection (q : QueryState) : List String :=
  let defaultSelect :=
    [InternalKeys.Id] ++ q.classSchema.keys ++ q.classSchema.timestamps
  let selected := if q.selection.length > 0 then q.selection else defaultSelect
  selected ++ q.included

end Query

/-- Modelled from the spec: features/orm/query-mapper is not under src/.
§4.7/§4.2: `toQueryOptions` resolves the selection "into column lists
(expanding relation inclusion into prefixed column entries)"; a scalar key
maps to the class-qualified physical key with the key itself as output
alias, and a relation key expands to one prefixed entry
`relationAlias.relationColumn` per column of the relation target (the
prefix convention of §4.2 row mapping). -/
def getColumnsFrom (className : String) (selection : List String)
    (relationsMap : List RelDef) : List (String × String) :=
  selection.flatMap (fun key =>
    match relationsMap.find? (fun r => r.name = key) with
    | some r => r.cols.map (fun c => (key ++ "." ++ c, key ++ "." ++ c))
    | none => [(className ++ "." ++ key, key)])

/-- Modelled from the spec (features/orm/query-mapper is not under src/):
the relation descriptors of the selected relation keys, keyed by alias
(§3 "Relation descriptor", §4.2 join compilation). -/
def getRelationsFrom (selection : List String) (relationsMap : List RelDef) :
    List (String × String × String × String) :=
  selection.filterMap (fun key =>
    (relationsMap.find? (fun r => r.name = key)).map
      (fun r => (key, r.targetSource, r.parentKey, r.childKey)))

/-- Modelled from the spec (features/orm/query-mapper is not under src/):
the constraint map is "consumed once, read-only, at compile time" (§3),
so its accumulated entries pass through in order. -/
def getConstraintsFrom (m : ConstraintMap) : List (String × String × Value) :=
  m.toFlatArray

/-- Modelled from the spec (features/orm/query-mapper is not under src/):
sort tokens pass through in order; the adapter derives direction from the
leading character (§4.1). -/
def getSortingFrom (sorting : List String) : List String := sorting

/-- The `QueryOptionsType` boundary value (§3). -/
structure QueryOptionsType where
  source : String × String
  columns : List (String × String)
  relations : List (String × String × String × String)
  constraints : List (String × String × Value)
  sorting : List String
  skipped : Int
  limitation : Int

namespace Query

/-- Translated from `toQueryOptions` (query.ts:474-509).  The store is
read only for the sort-token array the query's `sorting` field refers
to. -/
def toQueryOptions (st : SortStore) (q : QueryState) : QueryOptionsType :=
  { source := (q.classSchema.source, q.classSchema.className),
    columns := getColumnsFrom q.classSchema.className (getSelection q)
      q.classSchema.relations,
    relations := getRelationsFrom (getSelection q) q.classSchema.relations,
    constraints := getConstraintsFrom q.constraints,
    sorting := getSortingFrom (st.getD q.sortingRef []),
    skipped := q.skipped,
    limitation := q.limitation }

/-- The four fields of `toQueryOptions` that `subqueryEscape`
(mysql/index.ts:95-99) reads — the sort store is not consulted for a
sub-query. -/
def queryValue (q : QueryState) : Value :=
  .vquery (q.classSchema.source, q.classSchema.className)
    (getColumnsFrom q.classSchema.className (getSelection q)
      q.classSchema.relations)
    (getRelationsFrom (getSelection q) q.classSchema.relations)
    (getConstraintsFrom q.constraints)

/-- Translated from `foundIn` (query.ts:222-226): the value query is
destructively narrowed by `toSubquery` and stored as the constraint
value.  (The source stores the query object and compiles it inside
`subqueryEscape` at compile time; no verified path mutates a sub-query
between registration and compilation, so the compiled-options view is
stored directly.) -/
def foundIn (q : QueryState) (key selectKey : String) (value : QueryState) :
    Except ErrCode QueryState := do
  let sub ← toSubquery value selectKey
  set q key Constraints.FoundIn (queryValue sub)

/-- Translated from `notFoundIn` (query.ts:262-266). -/
def notFoundIn (q : QueryState) (key selectKey : String) (value : QueryState) :
    Except ErrCode QueryState := do
  let sub ← toSubquery value selectKey
  set q key Constraints.NotFoundIn (queryValue sub)

/-- Translated from `notFoundInAll` (query.ts:287-294): each entry of the
argument list carries one select key and one query; every query is
narrowed by `toSubquery` and the list is stored under
`Constraints.NotFoundInAll`. -/
def notFoundInAll (q : QueryState) (key : String)
    (value : List (String × QueryState)) : Except ErrCode QueryState := do
  let subs ← value.mapM (fun item => do
    let sub ← toSubquery item.2 item.1
    pure (queryValue sub))
  set q key Constraints.NotFoundInAll (.vlist subs)

/-- Translated from `where` (query.ts:428-435): a nested
key → kind → value structure applied entry by entry through `set`. -/
def whereClause (q : QueryState)
    (cs : List (String × List (String × Value))) :
    Except ErrCode QueryState :=
  cs.foldlM (fun q kv =>
    kv.2.foldlM (fun q cv => set q kv.1 cv.1 cv.2) q) q

end Query

/-! Write compilation (mysql/index.ts:236-298).  The adapter methods are
async only around the transport round-trip; their payload stamping and
SQL-text assembly are pure and embedded as such.  `now` stands for the
single `this.currentTimestamp` read each method performs. -/

/-- The timestamp stamping of `create` (mysql/index.ts:238-240): creation
and update timestamps both set to the one `now`. -/
def createKeys (keys : KeyMap) (now : String) : KeyMap :=
  (keys.set CreatedAt (.vstr now)).set UpdatedAt (.vstr now)

/-- The timestamp stamping of `update` (mysql/index.ts:262-263): only the
update timestamp. -/
def updateKeys (keys : KeyMap) (now : String) : KeyMap :=
  keys.set UpdatedAt (.vstr now)

/-- The timestamp stamping of `destroy` (mysql/index.ts:283-285): update
and deletion timestamps both set to the one `now`. -/
def destroyKeys (keys : KeyMap) (now : String) : KeyMap :=
  (keys.set UpdatedAt (.vstr now)).set DeletedAt (.vstr now)

/-- Translated from `create` (mysql/index.ts:236-255): the INSERT text
sent to the client, with every column name client-escaped and every
payload value client-escaped. -/
def createScript (source : String) (keys : KeyMap) (now : String) : String :=
  let keys := createKeys keys now
  "INSERT INTO " ++ clientEscapeKey source false ++ " (" ++
    String.intercalate ", " (keys.keys.map (fun k => clientEscapeKey k false)) ++
    ") VALUES (" ++
    String.intercalate ", " (keys.values.map clientEscape) ++
    "); -- Warp Server " ++ version

/-- The `SET` pairs shared by `update` and `destroy`
(mysql/index.ts:266-269, 288-291): escaped column = escaped value. -/
def writeSqlInput (keys : KeyMap) : List String :=
  keys.toArray.map
    (fun p => clientEscapeKey p.1 false ++ " = " ++ clientEscape p.2)

/-- Translated from `update` (mysql/index.ts:257-276): the UPDATE text.
The row identifier is interpolated into the WHERE clause by the JS
template literal (`WHERE ${idKey} = ${id}`), i.e. by string conversion,
with no escaping call around `id`. -/
def updateScript (source : String) (keys : KeyMap) (id : Value)
    (now : String) : String :=
  let idKey := clientEscapeKey InternalId false
  let keys := updateKeys keys now
  "UPDATE " ++ clientEscapeKey source false ++ " SET " ++
    String.intercalate ", " (writeSqlInput keys) ++
    " WHERE " ++ idKey ++ " = " ++ jsString id ++ "; -- Warp Server " ++ version

/-- Translated from `destroy` (mysql/index.ts:278-298): identical UPDATE
shape as `update`, with the destroy stamping. -/
def destroyScript (source : String) (keys : KeyMap) (id : Value)
    (now : String) : String :=
  let idKey := clientEscapeKey InternalId false
  let keys := destroyKeys keys now
  "UPDATE " ++ clientEscapeKey source false ++ " SET " ++
    String.intercalate ", " (writeSqlInput keys) ++
    " WHERE " ++ idKey ++ " = " ++ jsString id ++ "; -- Warp Server " ++ version

/-! Row mapping (mysql/index.ts:178-202). -/

/-! Modelled from the spec: features/orm/relation is not under src/.  §4.2:
"every output column name may carry a relation prefix of the form
relationAlias.relationColumn"; a key is a relation key when it contains
the dot separator, and parsing splits at it. -/

namespace Relation

def isUsedBy (key : String) : Bool :=
  (splitString key '.').length > 1

def parseKey (key : String) : String × String :=
  match splitString key '.' with
  | a :: b :: _ => (a, b)
  | _ => (key, "")

end Relation

/-- JS property assignment on an object literal: overwrite in place when
the key exists, append otherwise (the semantics of
`{ ...prev, [relationKey]: value }` for the new key). -/
def objSet (m : List (String × Value)) (k : String) (v : Value) :
    List (String × Value) :=
  assocSet m k v

/-- The `{ ...keys.get(relationName), [relationKey]: value }` spread of
`mapRows` (mysql/index.ts:190): merge into the existing nested object, or
start a fresh one when nothing (or a non-object, which spreads to no
enumerable properties on the verified paths) is stored yet. -/
def objSpread (prev : Option Value) (k : String) (v : Value) :
    List (String × Value) :=
  match prev with
  | some (.vobj m) => objSet m k v
  | _ => [(k, v)]

/-- The iteration of `mapRows` over `Object.entries(row)`
(mysql/index.ts:183-198). -/
def mapRowsAux (keys : KeyMap) : List (String × Value) → KeyMap
  | [] => keys
  | (key, value) :: rest =>
      if Relation.isUsedBy key then
        let p := Relation.parseKey key
        mapRowsAux (keys.set p.1 (.vobj (objSpread (keys.get p.1) p.2 value))) rest
      else
        mapRowsAux (keys.set key value) rest

/-- Translated from `mapRows` (mysql/index.ts:178-202): fold the raw row
into a fresh KeyMap, nesting relation-prefixed columns. -/
def mapRows (row : List (String × Value)) : KeyMap :=
  mapRowsAux KeyMap.empty row

/-- Translated from `getSortClause` (mysql/index.ts:162-172): a leading
sort symbol means descending. -/
def getSortClause (sort : List String) : String :=
  String.intercalate ", " (sort.map (fun keySort =>
    if Query.headIsDash keySort then
      escapeKey (Query.dropFirst keySort) false ++ " DESC"
    else escapeKey keySort false ++ " ASC"))

/-- Occurrences of a (non-empty) pattern in a string, counted at every
character position (used to state the key/value-occurrence properties of
compiled fragments). -/
def countOccsAux (pat : List Char) : List Char → Nat
  | [] => 0
  | c :: rest =>
      (if pat.isPrefixOf (c :: rest) then 1 else 0) + countOccsAux pat rest

/-- Occurrences of `pat` in `s`. -/
def countOccs (s pat : String) : Nat :=
  countOccsAux pat.data s.data

/-- The constraint kinds registered by the public builder surface
(query.ts: equalTo ... notFoundInAll and the generic where), in
declaration order.  Note this list has one kind more than
`constraintMatrixKinds`: the builder's `notFoundInAll` (query.ts:287-294)
registers `Constraints.NotFoundInAll`, for which the adapter's fragment
object has no entry. -/
def builderKinds : List String :=
  constraintMatrixKinds ++ [Constraints.NotFoundInAll]

/-- A concrete schema for witnesses and counterexamples: class `Post`
over table `posts` with scalar keys and no relations. -/
def postSchema : ClassSchema :=
  { className := "Post", source := "posts",
    keys := ["title", "description", "status", "x"],
    timestamps := [CreatedAt, UpdatedAt], relations := [] }

/-- A concrete relation: `author` joining `posts` to `users`. -/
def authorRel : RelDef :=
  { name := "author", targetSource := "users", cols := ["id", "name"],
    parentKey := "Post.author_id", childKey := "author.id" }

/-- A concrete schema with an `author` relation declared. -/
def authorPostSchema : ClassSchema :=
  { className := "Post", source := "posts", keys := ["title", "x"],
    timestamps := [], relations := [authorRel] }

/-- A first concrete sub-query options value for the C6 occurrence
properties (a narrowed single-column query over `users`). -/
def c6SubQ1 : Value := .vquery ("users", "User") [("User.id", "id")] [] []

/-- A second, distinct concrete sub-query options value. -/
def c6SubQ2 : Value := .vquery ("tags", "Tag") [("Tag.id", "id")] [] []

/-- A representative, kind-appropriate constraint value for each kind of
the escaping matrix: a list of two values for membership/group kinds, a
boolean for `exists`, sub-queries for the foundIn family, a plain string
otherwise. -/
def kindArgFor (c : String) : Value :=
  if c = Constraints.Exists then .vbool true
  else if [Constraints.ContainedIn, Constraints.NotContainedIn,
      Constraints.ContainedInOrDoesNotExist, Constraints.ContainsEither,
      Constraints.ContainsAll].contains c then
    .vlist [.vstr "v1", .vstr "v2"]
  else if [Constraints.FoundIn, Constraints.NotFoundIn].contains c then
    c6SubQ1
  else if [Constraints.FoundInEither, Constraints.FoundInAll,
      Constraints.NotFoundInEither].contains c then
    .vlist [c6SubQ1, c6SubQ2]
  else .vstr "v1"

/-- How often the escaped key appears in the fragment compiled from
`kindArgFor`: twice for `containedInOrDoesNotExist` (the generator writes
`k` in both disjuncts), once per listed value (here two) for the
either/all group kinds, and once otherwise. -/
def expectedKeyOccs (c : String) : Nat :=
  if c = Constraints.ContainedInOrDoesNotExist then 2
  else if [Constraints.ContainsEither, Constraints.ContainsAll,
      Constraints.FoundInEither, Constraints.FoundInAll,
      Constraints.NotFoundInEither].contains c then 2
  else 1

/-- The per-value occurrence markers of the `kindArgFor` input: the raw
value texts for value-carrying kinds, the compiled sub-selects for the
foundIn family, nothing for `exists`. -/
def valMarkersFor (c : String) : List String :=
  if c = Constraints.Exists then []
  else if [Constraints.ContainedIn, Constraints.NotContainedIn,
      Constraints.ContainedInOrDoesNotExist, Constraints.ContainsEither,
      Constraints.ContainsAll].contains c then ["v1", "v2"]
  else if [Constraints.FoundIn, Constraints.NotFoundIn].contains c then
    ["SELECT `User`.`id` AS `id` FROM `users` AS `User`  WHERE "]
  else if [Constraints.FoundInEither, Constraints.FoundInAll,
      Constraints.NotFoundInEither].contains c then
    ["SELECT `User`.`id` AS `id` FROM `users` AS `User`  WHERE ",
     "SELECT `Tag`.`id` AS `id` FROM `tags` AS `Tag`  WHERE "]
  else ["v1"]

/-! Unfolding lemmas for the compiler (the definitions above are compiled
by well-founded recursion, so they are rewritten through their equations). -/

theorem except_bind_ok {ε α β : Type} (a : α) (f : α → Except ε β) :
    (Except.ok a >>= f) = f a := rfl

theorem except_bind_error {ε α β : Type} (e : ε) (f : α → Except ε β) :
    ((Except.error e : Except ε α) >>= f) = Except.error e := rfl

theorem parseConstraint_defined (key c : String) (v : Value)
    (h : constraintDefined c = true) :
    parseConstraint key c v = applyConstraint c (escapeKey key false) v := by
  rw [parseConstraint.eq_def]; simp [h]

theorem parseConstraint_undefined (key c : String) (v : Value)
    (h : constraintDefined c = false) :
    parseConstraint key c v = .error .forbiddenOperation := by
  rw [parseConstraint.eq_def]; simp [h]

theorem parseConstraint_equalTo (key : String) (v : Value) :
    parseConstraint key Constraints.EqualTo v =
      .ok (escapeKey key false ++ " = " ++ regularEscape v) := by
  rw [parseConstraint_defined key Constraints.EqualTo v rfl, applyConstraint.eq_def]; rfl

theorem parseConstraint_notEqualTo (key : String) (v : Value) :
    parseConstraint key Constraints.NotEqualTo v =
      .ok (escapeKey key false ++ " <> " ++ regularEscape v) := by
  rw [parseConstraint_defined key Constraints.NotEqualTo v rfl, applyConstraint.eq_def]; rfl

theorem parseConstraint_greaterThan (key : String) (v : Value) :
    parseConstraint key Constraints.GreaterThan v =
      .ok (escapeKey key false ++ " > " ++ regularEscape v) := by
  rw [parseConstraint_defined key Constraints.GreaterThan v rfl, applyConstraint.eq_def]; rfl

theorem parseConstraint_greaterThanOrEqualTo (key : String) (v : Value) :
    parseConstraint key Constraints.GreaterThanOrEqualTo v =
      .ok (escapeKey key false ++ " >= " ++ regularEscape v) := by
  rw [parseConstraint_defined key Constraints.GreaterThanOrEqualTo v rfl, applyConstraint.eq_def]; rfl

theorem parseConstraint_lessThan (key : String) (v : Value) :
    parseConstraint key Constraints.LessThan v =
      .ok (escapeKey key false ++ " < " ++ regularEscape v) := by
  rw [parseConstraint_defined key Constraints.LessThan v rfl, applyConstraint.eq_def]; rfl

theorem parseConstraint_lessThanOrEqualTo (key : String) (v : Value) :
    parseConstraint key Constraints.LessThanOrEqualTo v =
      .ok (escapeKey key false ++ " <= " ++ regularEscape v) := by
  rw [parseConstraint_defined key Constraints.LessThanOrEqualTo v rfl, applyConstraint.eq_def]; rfl

theorem parseConstraint_exists (key : String) (v : Value) :
    parseConstraint key Constraints.Exists v =
      .ok (escapeKey key false ++ " " ++
        (if truthy v then "IS NOT NULL" else "IS NULL")) := by
  rw [parseConstraint_defined key Constraints.Exists v rfl, applyConstraint.eq_def]; rfl

theorem parseConstraint_containedIn (key : String) (v : Value) :
    parseConstraint key Constraints.ContainedIn v =
      .ok (escapeKey key false ++ " IN (" ++ collectionEscape v ++ ")") := by
  rw [parseConstraint_defined key Constraints.ContainedIn v rfl, applyConstraint.eq_def]; rfl

theorem parseConstraint_notContainedIn (key : String) (v : Value) :
    parseConstraint key Constraints.NotContainedIn v =
      .ok (escapeKey key false ++ " NOT IN (" ++ collectionEscape v ++ ")") := by
  rw [parseConstraint_defined key Constraints.NotContainedIn v rfl, applyConstraint.eq_def]; rfl

theorem parseConstraint_containedInOrDoesNotExist (key : String) (v : Value) :
    parseConstraint key Constraints.ContainedInOrDoesNotExist v =
      .ok ("(" ++ escapeKey key false ++ " IS NULL OR " ++ escapeKey key false ++
        " IN (" ++ collectionEscape v ++ "))") := by
  rw [parseConstraint_defined key Constraints.ContainedInOrDoesNotExist v rfl, applyConstraint.eq_def]; rfl

theorem parseConstraint_startsWith (key : String) (v : Value) :
    parseConstraint key Constraints.StartsWith v =
      .ok (escapeKey key false ++ " LIKE " ++
        regularEscape (.vstr (jsString v ++ "%"))) := by
  rw [parseConstraint_defined key Constraints.StartsWith v rfl, applyConstraint.eq_def]; rfl

theorem parseConstraint_endsWith (key : String) (v : Value) :
    parseConstraint key Constraints.EndsWith v =
      .ok (escapeKey key false ++ " LIKE " ++
        regularEscape (.vstr ("%" ++ jsString v))) := by
  rw [parseConstraint_defined key Constraints.EndsWith v rfl, applyConstraint.eq_def]; rfl

theorem parseConstraint_contains (key : String) (v : Value) :
    parseConstraint key Constraints.Contains v =
      .ok (escapeKey key false ++ " LIKE " ++
        regularEscape (.vstr ("%" ++ jsString v ++ "%"))) := by
  rw [parseConstraint_defined key Constraints.Contains v rfl, applyConstraint.eq_def]; rfl

theorem parseConstraint_containsEither (key : String) (v : Value) :
    parseConstraint key Constraints.ContainsEither v =
      .ok ("(" ++ String.intercalate " OR "
        ((asList v).map (fun i => escapeKey key false ++ " LIKE " ++
          regularEscape (.vstr ("%" ++ jsString i ++ "%")))) ++ ")") := by
  rw [parseConstraint_defined key Constraints.ContainsEither v rfl, applyConstraint.eq_def]; rfl

theorem parseConstraint_containsAll (key : String) (v : Value) :
    parseConstraint key Constraints.ContainsAll v =
      .ok ("(" ++ String.intercalate " AND "
        ((asList v).map (fun i => escapeKey key false ++ " LIKE " ++
          regularEscape (.vstr ("%" ++ jsString i ++ "%")))) ++ ")") := by
  rw [parseConstraint_defined key Constraints.ContainsAll v rfl, applyConstraint.eq_def]; rfl

theorem parseConstraint_foundIn (key : String) (v : Value) :
    parseConstraint key Constraints.FoundIn v =
      (subqueryEscape v >>= fun s =>
        .ok (escapeKey key false ++ " IN (" ++ s ++ ")")) := by
  rw [parseConstraint_defined key Constraints.FoundIn v rfl, applyConstraint.eq_def]; rfl

theorem parseConstraint_notFoundIn (key : String) (v : Value) :
    parseConstraint key Constraints.NotFoundIn v =
      (subqueryEscape v >>= fun s =>
        .ok (escapeKey key false ++ " NOT IN (" ++ s ++ ")")) := by
  rw [parseConstraint_defined key Constraints.NotFoundIn v rfl, applyConstraint.eq_def]; rfl

theorem parseConstraint_foundInEither (key : String) (l : List Value) :
    parseConstraint key Constraints.FoundInEither (.vlist l) =
      (foundInFrags false (escapeKey key false) l >>= fun fs =>
        .ok ("(" ++ String.intercalate " OR " fs ++ ")")) := by
  rw [parseConstraint_defined key Constraints.FoundInEither (Value.vlist l) rfl, applyConstraint.eq_def]; rfl

theorem parseConstraint_foundInAll (key : String) (l : List Value) :
    parseConstraint key Constraints.FoundInAll (.vlist l) =
      (foundInFrags false (escapeKey key false) l >>= fun fs =>
        .ok ("(" ++ String.intercalate " AND " fs ++ ")")) := by
  rw [parseConstraint_defined key Constraints.FoundInAll (Value.vlist l) rfl, applyConstraint.eq_def]; rfl

theorem parseConstraint_notFoundInEither (key : String) (l : List Value) :
    parseConstraint key Constraints.NotFoundInEither (.vlist l) =
      (foundInFrags true (escapeKey key false) l >>= fun fs =>
        .ok ("(" ++ String.intercalate " AND " fs ++ ")")) := by
  rw [parseConstraint_defined key Constraints.NotFoundInEither (Value.vlist l) rfl, applyConstraint.eq_def]; rfl

theorem parseConstraint_notFoundInAll (key : String) (v : Value) :
    parseConstraint key Constraints.NotFoundInAll v =
      .error .forbiddenOperation := by
  rw [parseConstraint_undefined key Constraints.NotFoundInAll v rfl]

theorem subqueryEscape_vquery (src : String × String)
    (cols : List (String × String))
    (rels : List (String × String × String × String))
    (entries : List (String × String × Value)) :
    subqueryEscape (.vquery src cols rels entries) =
      getFindClause src cols rels entries := by
  rw [subqueryEscape.eq_def]

theorem parseEntries_nil : parseEntries [] = .ok [] := by
  rw [parseEntries.eq_def]

theorem parseEntries_cons (key c : String) (v : Value)
    (rest : List (String × String × Value)) :
    parseEntries ((key, c, v) :: rest) =
      (parseConstraint key c v >>= fun s =>
        parseEntries rest >>= fun restS => .ok (s :: restS)) := by
  rw [parseEntries.eq_def]

theorem foundInFrags_nil (neg : Bool) (k : String) :
    foundInFrags neg k [] = .ok [] := by
  rw [foundInFrags.eq_def]

theorem foundInFrags_cons (neg : Bool) (k : String) (i : Value)
    (rest : List Value) :
    foundInFrags neg k (i :: rest) =
      (subqueryEscape i >>= fun s =>
        foundInFrags neg k rest >>= fun restFrags =>
          .ok ((k ++ (if neg then " NOT IN (" else " IN (") ++ s ++ ")")
            :: restFrags)) := by
  rw [foundInFrags.eq_def]

theorem getFindClause_eq (source : String × String)
    (columns : List (String × String))
    (relations : List (String × String × String × String))
    (entries : List (String × String × Value)) :
    getFindClause source columns relations entries =
      (parseEntries entries >>= fun w =>
        .ok ("SELECT " ++ String.intercalate ", "
            (columns.map (fun p => escapeKey p.1 false ++ " AS " ++ escapeKey p.2 true)) ++
          " FROM " ++ (escapeKey source.1 false ++ " AS " ++ escapeKey source.2 false) ++
          " " ++ String.intercalate "\n"
            (relations.map (fun r => "LEFT OUTER JOIN " ++ escapeKey r.2.1 false ++
              " AS " ++ escapeKey r.1 true ++ " ON " ++ escapeKey r.2.2.1 false ++
              " = " ++ escapeKey r.2.2.2 false)) ++
          " WHERE " ++ String.intercalate " AND " w)) := by
  rw [getFindClause.eq_def]

/-! Association-list lemmas for `assocSet` (shared by the KeyMap and the
row-mapper object semantics). -/

theorem find?_map_overwrite (l : List (String × Value)) (k : String)
    (v : Value) (h : l.any (fun p => p.1 = k) = true) :
    (l.map (fun p => if p.1 = k then (k, v) else p)).find?
      (fun p => p.1 = k) = some (k, v) := by
  induction l with
  | nil => simp at h
  | cons hd tl ih =>
      by_cases hk : hd.1 = k
      · simp [hk]
      · have h' : tl.any (fun p => p.1 = k) = true := by
          simpa [hk] using h
        simp [hk, ih h']

theorem find?_append_new (l : List (String × Value)) (k : String)
    (v : Value) (h : l.any (fun p => p.1 = k) = false) :
    (l ++ [(k, v)]).find? (fun p => p.1 = k) = some (k, v) := by
  induction l with
  | nil => simp
  | cons hd tl ih =>
      have hk : ¬ (hd.1 = k) := by
        intro hc; simp [hc] at h
      have h' : tl.any (fun p => p.1 = k) = false := by
        simpa [hk] using h
      simp [hk, ih h']

theorem find?_assocSet_self (l : List (String × Value)) (k : String)
    (v : Value) :
    (assocSet l k v).find? (fun p => p.1 = k) = some (k, v) := by
  unfold assocSet
  by_cases h : l.any (fun p => p.1 = k) = true
  · simp only [h, if_true]
    exact find?_map_overwrite l k v h
  · have h' : l.any (fun p => p.1 = k) = false := Bool.eq_false_iff.mpr h
    simp only [h', Bool.false_eq_true, if_false]
    exact find?_append_new l k v h'

theorem find?_map_overwrite_ne (l : List (String × Value)) (k k' : String)
    (v : Value) (h : k' ≠ k) :
    (l.map (fun p => if p.1 = k then (k, v) else p)).find?
      (fun p => p.1 = k') = l.find? (fun p => p.1 = k') := by
  induction l with
  | nil => simp
  | cons hd tl ih =>
      by_cases hk : hd.1 = k
      · have h1 : ¬ ((k : String) = k') := fun hc => h hc.symm
        have h2 : ¬ (hd.1 = k') := by rw [hk]; exact h1
        simp [hk, h1, h2, ih]
      · by_cases hk' : hd.1 = k'
        · have hmap : ((hd :: tl).map (fun p => if p.1 = k then (k, v) else p)) =
              hd :: tl.map (fun p => if p.1 = k then (k, v) else p) := by
            simp [hk]
          rw [hmap, List.find?_cons_of_pos, List.find?_cons_of_pos] <;>
            simp [hk']
        · simp [hk, hk', ih]

theorem find?_append_ne (l : List (String × Value)) (k k' : String)
    (v : Value) (h : k' ≠ k) :
    (l ++ [(k, v)]).find? (fun p => p.1 = k') =
      l.find? (fun p => p.1 = k') := by
  induction l with
  | nil =>
      have h1 : ¬ ((k : String) = k') := fun hc => h hc.symm
      simp [h1]
  | cons hd tl ih =>
      by_cases hk' : hd.1 = k'
      · simp [hk', ih]
      · simp [hk', ih]

theorem find?_assocSet_ne (l : List (String × Value)) (k k' : String)
    (v : Value) (h : k' ≠ k) :
    (assocSet l k v).find? (fun p => p.1 = k') =
      l.find? (fun p => p.1 = k') := by
  unfold assocSet
  by_cases hany : l.any (fun p => p.1 = k) = true
  · simp only [hany, if_true]
    exact find?_map_overwrite_ne l k k' v h
  · have h' : l.any (fun p => p.1 = k) = false := Bool.eq_false_iff.mpr hany
    simp only [h', Bool.false_eq_true, if_false]
    exact find?_append_ne l k k' v h

/-- `KeyMap.get` after `KeyMap.set` at the same key. -/
theorem KeyMap.get_set_self (m : KeyMap) (k : String) (v : Value) :
    (m.set k v).get k = some v := by
  unfold KeyMap.set KeyMap.get
  rw [find?_assocSet_self]
  rfl

/-- `KeyMap.get` after `KeyMap.set` at a different key. -/
theorem KeyMap.get_set_ne (m : KeyMap) (k k' : String) (v : Value)
    (h : k' ≠ k) : (m.set k v).get k' = m.get k' := by
  unfold KeyMap.set KeyMap.get
  rw [find?_assocSet_ne _ _ _ _ h]

/-- C8: on any payload KeyMap, `create` sets both the creation and update
timestamp keys to the same instant `now`; `update` sets only the update
timestamp key; `destroy` sets both the update and deletion timestamp
keys; and each write stamping leaves every other key of the payload
unchanged. -/
theorem C8_write_timestamp_stamping (keys : KeyMap) (now : String) :
    ((createKeys keys now).get CreatedAt = some (.vstr now) ∧
     (createKeys keys now).get UpdatedAt = some (.vstr now) ∧
     (∀ k, k ≠ CreatedAt → k ≠ UpdatedAt →
       (createKeys keys now).get k = keys.get k)) ∧
    ((updateKeys keys now).get UpdatedAt = some (.vstr now) ∧
     (∀ k, k ≠ UpdatedAt → (updateKeys keys now).get k = keys.get k)) ∧
    ((destroyKeys keys now).get UpdatedAt = some (.vstr now) ∧
     (destroyKeys keys now).get DeletedAt = some (.vstr now) ∧
     (∀ k, k ≠ UpdatedAt → k ≠ DeletedAt →
       (destroyKeys keys now).get k = keys.get k)) := by
  refine ⟨⟨?_, ?_, ?_⟩, ⟨?_, ?_⟩, ⟨?_, ?_, ?_⟩⟩
  · unfold createKeys
    rw [KeyMap.get_set_ne _ _ _ _ (by decide : CreatedAt ≠ UpdatedAt),
      KeyMap.get_set_self]
  · unfold createKeys
    rw [KeyMap.get_set_self]
  · intro k h1 h2
    unfold createKeys
    rw [KeyMap.get_set_ne _ _ _ _ h2, KeyMap.get_set_ne _ _ _ _ h1]
  · unfold updateKeys
    rw [KeyMap.get_set_self]
  · intro k h1
    unfold updateKeys
    rw [KeyMap.get_set_ne _ _ _ _ h1]
  · unfold destroyKeys
    rw [KeyMap.get_set_ne _ _ _ _ (by decide : UpdatedAt ≠ DeletedAt),
      KeyMap.get_set_self]
  · unfold destroyKeys
    rw [KeyMap.get_set_self]
  · intro k h1 h2
    unfold destroyKeys
    rw [KeyMap.get_set_ne _ _ _ _ h2, KeyMap.get_set_ne _ _ _ _ h1]

/-- Witness for C8 at a concrete payload: the non-timestamp key `title`
survives all three stampings and `create` stamps both timestamps. -/
theorem C8_witness :
    (createKeys ⟨[("title", Value.vstr "hi")]⟩ "T").get CreatedAt =
      some (.vstr "T") ∧
    (updateKeys ⟨[("title", Value.vstr "hi")]⟩ "T").get "title" =
      some (.vstr "hi") ∧
    (destroyKeys ⟨[("title", Value.vstr "hi")]⟩ "T").get "title" =
      some (.vstr "hi") := by
  refine ⟨?_, ?_, ?_⟩
  · exact (C8_write_timestamp_stamping ⟨[("title", .vstr "hi")]⟩ "T").1.1
  · rw [(C8_write_timestamp_stamping ⟨[("title", .vstr "hi")]⟩ "T").2.1.2
      "title" (by decide)]
    rfl
  · rw [(C8_write_timestamp_stamping ⟨[("title", .vstr "hi")]⟩ "T").2.2.2.2
      "title" (by decide) (by decide)]
    rfl

/-- C10 counterexample: on class `Post`, the empty-array call
`select([])` does not fail — it returns the query unchanged — while only
the zero-argument call `select()` fails with the missing-configuration
error.  This refutes the claim that both calls fail. -/
theorem C10_counterexample :
    Query.select (newQuery postSchema) [Query.SelArg.arr []] =
      .ok (newQuery postSchema) ∧
    (∀ e : ErrCode, Query.select (newQuery postSchema) [Query.SelArg.arr []] ≠
      .error e) ∧
    Query.select (newQuery postSchema) [] =
      .error .missingConfiguration := by
  refine ⟨rfl, ?_, rfl⟩
  intro e h
  have hok : Query.select (newQuery postSchema) [Query.SelArg.arr []] =
      .ok (newQuery postSchema) := rfl
  rw [hok] at h
  exact Except.noConfusion h

/-- C10 (amended): the zero-argument call `select()` fails with the
missing-configuration error; the call `select([])` with an empty array
passes the zero-argument check (its argument count is one) and returns
the query with its selection unchanged. -/
theorem C10_select_empty (q : QueryState) :
    Query.select q [] = .error .missingConfiguration ∧
    Query.select q [Query.SelArg.arr []] = .ok q := by
  exact ⟨rfl, rfl⟩

/-- C3 counterexample: constraining the undeclared key `foo` on class
`Post` fails, but with the forbidden-operation error code, not the
invalid-key (`InvalidObjectKey`) code that `select`/`include`/`sortBy`
use. -/
theorem C3_counterexample :
    Query.equalTo (newQuery postSchema) "foo" (.vstr "x") =
      .error .forbiddenOperation ∧
    ErrCode.forbiddenOperation ≠ ErrCode.invalidObjectKey := by
  exact ⟨rfl, by decide⟩

/-- C3 (amended): every constraint-adding builder call on a key not
declared in the target class's schema fails — all of them route through
the private `set`, which throws with code `Error.Code.ForbiddenOperation`
(not the invalid-key code). -/
theorem C3_undeclared_key_fails (q : QueryState) (key c : String)
    (v : Value) (h : q.classSchema.has key = false) :
    Query.set q key c v = .error .forbiddenOperation := by
  unfold Query.set
  simp [h]

/-- C1: the row identifier of `update` and `destroy` is interpolated into
the WHERE clause raw — evaluated at the failing input
`id = "1 OR 1 = 1"`, the generated UPDATE texts contain the identifier
verbatim and its escaped form (`'1 OR 1 = 1'`, which `client.escape`
would have produced) nowhere, so a user-supplied identifier reaches the
generated SQL without passing through an escaping function. -/
theorem C1_raw_identifier_in_update_where :
    updateScript "posts" ⟨[("title", Value.vstr "hi")]⟩
        (.vstr "1 OR 1 = 1") "2020-01-01 00:00:00" =
      "UPDATE `posts` SET `title` = 'hi', `updated_at` = '2020-01-01 00:00:00' WHERE `id` = 1 OR 1 = 1; -- Warp Server 0.0.0" ∧
    destroyScript "posts" ⟨[]⟩ (.vstr "1 OR 1 = 1") "2020-01-01 00:00:00" =
      "UPDATE `posts` SET `updated_at` = '2020-01-01 00:00:00', `deleted_at` = '2020-01-01 00:00:00' WHERE `id` = 1 OR 1 = 1; -- Warp Server 0.0.0" ∧
    clientEscape (.vstr "1 OR 1 = 1") = "'1 OR 1 = 1'" ∧
    countOccs
      (updateScript "posts" ⟨[("title", Value.vstr "hi")]⟩
        (.vstr "1 OR 1 = 1") "2020-01-01 00:00:00")
      (clientEscape (.vstr "1 OR 1 = 1")) = 0 ∧
    countOccs
      (destroyScript "posts" ⟨[]⟩ (.vstr "1 OR 1 = 1") "2020-01-01 00:00:00")
      (clientEscape (.vstr "1 OR 1 = 1")) = 0 := by
  exact ⟨rfl, rfl, rfl, rfl, rfl⟩

/-- C2 counterexample: a query built solely through the documented
builder surface — `notFoundInAll('x', [{title: otherQuery}])` on class
`Post` — is accepted by the builder, but compiling its constraint entries
raises the forbidden-operation error, because the adapter's fragment
object has no `NotFoundInAll` entry. -/
theorem C2_counterexample :
    (Query.notFoundInAll (newQuery postSchema) "x"
        [("title", newQuery postSchema)]).toOption.map
      (fun q => parseEntries (getConstraintsFrom q.constraints)) =
      some (.error .forbiddenOperation) := by
  have key : ∀ (v : Value) (rest : List (String × String × Value)),
      parseEntries (("x", Constraints.NotFoundInAll, v) :: rest) =
        .error .forbiddenOperation := by
    intro v rest
    rw [parseEntries_cons, parseConstraint_notFoundInAll]
    rfl
  have h1 : (Query.notFoundInAll (newQuery postSchema) "x"
        [("title", newQuery postSchema)]).toOption.map
      (fun q => parseEntries (getConstraintsFrom q.constraints)) =
      some (parseEntries [("x", Constraints.NotFoundInAll,
        .vlist [Query.queryValue
          { newQuery postSchema with selection := ["title"] }])]) := rfl
  rw [h1, key]

/-- C2 (amended): every constraint kind producible by a public builder
method except `notFoundInAll` has a matching fragment-generator entry in
the escaping matrix; `notFoundInAll` has none, so only queries using it
reach the forbidden-operation error. -/
theorem C2_matrix_missing_notFoundInAll :
    (∀ c, c ∈ builderKinds → c ≠ Constraints.NotFoundInAll →
      constraintDefined c = true) ∧
    constraintDefined Constraints.NotFoundInAll = false := by
  constructor
  · intro c hc hne
    fin_cases hc <;> first | rfl | exact absurd rfl hne
  · rfl

/-- Witness for C2 at the `equalTo` kind. -/
theorem C2_witness : constraintDefined Constraints.EqualTo = true :=
  C2_matrix_missing_notFoundInAll.1 Constraints.EqualTo (by decide)
    (by decide)

/-- C4 counterexample: `contains(['title','description'], 'x')` on class
`Post` compiles to a single LIKE over `CONCAT` of the two keys — the
fragment contains one LIKE, not one per listed key, and no OR — refuting
the claim that the compiled predicate is an OR-group with one LIKE
fragment per key. -/
theorem C4_counterexample :
    (Query.contains (newQuery postSchema)
        (.many ["title", "description"]) "x").toOption.map
      (fun q => parseEntries (getConstraintsFrom q.constraints)) =
      some (.ok ["CONCAT(`title`,`description`) LIKE '%x%'"]) ∧
    countOccs "CONCAT(`title`,`description`) LIKE '%x%'" "LIKE" = 1 ∧
    countOccs "CONCAT(`title`,`description`) LIKE '%x%'" " OR " = 0 := by
  refine ⟨?_, rfl, rfl⟩
  have h1 : (Query.contains (newQuery postSchema)
        (.many ["title", "description"]) "x").toOption.map
      (fun q => parseEntries (getConstraintsFrom q.constraints)) =
      some (parseEntries
        [("title|description", Constraints.Contains, Value.vstr "x")]) := rfl
  rw [h1, parseEntries_cons, parseConstraint_contains, parseEntries_nil]
  rfl

/-- C4 (amended): a contains-family call with several keys stores one
entry keyed by the pipe-joined key list; at compile time that joined key
escapes to a CONCAT of the individually escaped keys, and the predicate
is a single LIKE over the concatenation (`contains`), or an OR-group
(`containsEither`) / AND-group (`containsAll`) over the listed *values*
with one LIKE over the concatenation per value — not an OR-group over
the individual keys. -/
theorem C4_compound_contains_concat (v a b : String) :
    parseConstraint "title|description" Constraints.Contains (.vstr v) =
      .ok ("CONCAT(`title`,`description`) LIKE " ++
        regularEscape (.vstr ("%" ++ v ++ "%"))) ∧
    parseConstraint "title|description" Constraints.ContainsEither
        (.vlist [.vstr a, .vstr b]) =
      .ok ("(" ++ String.intercalate " OR "
        ["CONCAT(`title`,`description`) LIKE " ++
           regularEscape (.vstr ("%" ++ a ++ "%")),
         "CONCAT(`title`,`description`) LIKE " ++
           regularEscape (.vstr ("%" ++ b ++ "%"))] ++ ")") ∧
    parseConstraint "title|description" Constraints.ContainsAll
        (.vlist [.vstr a, .vstr b]) =
      .ok ("(" ++ String.intercalate " AND "
        ["CONCAT(`title`,`description`) LIKE " ++
           regularEscape (.vstr ("%" ++ a ++ "%")),
         "CONCAT(`title`,`description`) LIKE " ++
           regularEscape (.vstr ("%" ++ b ++ "%"))] ++ ")") := by
  refine ⟨?_, ?_, ?_⟩
  · rw [parseConstraint_contains]; rfl
  · rw [parseConstraint_containsEither]; rfl
  · rw [parseConstraint_containsAll]; rfl

/-- C5: builder state is NOT owned per query instance — both fresh Query
instances receive the same `Defaults.Query.Sort` array reference
(query.ts:17), and `sortBy`/`sortByDescending` push into that shared
array, so after `q1.sortBy('title')` a second, untouched instance `q2`
observes the token in its own `toQueryOptions().sorting`.  Before the
call, `q2`'s sorting is the default; after it, the pushed token appears. -/
theorem C5_sortBy_leaks_across_instances :
    (Query.toQueryOptions (initStore []) (newQuery postSchema)).sorting
      = [] ∧
    ((Query.sortBy (initStore []) (newQuery postSchema)
        [.str "title"]).toOption.map
      (fun r => (Query.toQueryOptions r.1 (newQuery postSchema)).sorting))
      = some ["title"] ∧
    ((Query.sortByDescending (initStore []) (newQuery postSchema)
        [.str "title"]).toOption.map
      (fun r => (Query.toQueryOptions r.1 (newQuery postSchema)).sorting))
      = some ["-title"] := by
  exact ⟨rfl, rfl, rfl⟩

/-- The compiled sub-select of the first C6 sub-query value. -/
theorem c6SubQ1_compiled : subqueryEscape c6SubQ1 =
    .ok "SELECT `User`.`id` AS `id` FROM `users` AS `User`  WHERE " := by
  rw [show c6SubQ1 = Value.vquery ("users", "User") [("User.id", "id")] [] []
      from rfl,
    subqueryEscape_vquery, getFindClause_eq, parseEntries_nil]
  rfl

/-- The compiled sub-select of the second C6 sub-query value. -/
theorem c6SubQ2_compiled : subqueryEscape c6SubQ2 =
    .ok "SELECT `Tag`.`id` AS `id` FROM `tags` AS `Tag`  WHERE " := by
  rw [show c6SubQ2 = Value.vquery ("tags", "Tag") [("Tag.id", "id")] [] []
      from rfl,
    subqueryEscape_vquery, getFindClause_eq, parseEntries_nil]
  rfl

/-- C6 counterexample: for the `containedInOrDoesNotExist` kind the
escaped key occurs twice in the compiled fragment (the generator writes
the key in both disjuncts), refuting "the escaped key occurs exactly
once" for every matrix kind. -/
theorem C6_counterexample :
    parseConstraint "st" Constraints.ContainedInOrDoesNotExist
        (.vlist [.vstr "a"]) = .ok "(`st` IS NULL OR `st` IN ('a'))" ∧
    countOccs "(`st` IS NULL OR `st` IN ('a'))" "`st`" ≠ 1 := by
  constructor
  · exact parseConstraint_containedInOrDoesNotExist "st" (.vlist [.vstr "a"])
  · decide

set_option maxRecDepth 40000 in
/-- C6 (amended): for every kind of the escaping matrix, compiled at a
representative kind-appropriate input over key `k0`, each escaped listed
value occurs exactly once, and the escaped key occurs exactly
`expectedKeyOccs` times: once for the scalar, membership, pattern and
single-sub-query kinds, but twice for `containedInOrDoesNotExist` and
once per listed value (here two) for the either/all group kinds. -/
theorem C6_fragment_occurrences :
    ∀ c ∈ constraintMatrixKinds,
      ∃ frag, parseConstraint "k0" c (kindArgFor c) = .ok frag ∧
        countOccs frag "`k0`" = expectedKeyOccs c ∧
        ∀ mv ∈ valMarkersFor c, countOccs frag mv = 1 := by
  intro c hc
  fin_cases hc
  · exact ⟨"`k0` = 'v1'",
      parseConstraint_equalTo "k0" (kindArgFor Constraints.EqualTo),
      by decide, by decide⟩
  · exact ⟨"`k0` <> 'v1'",
      parseConstraint_notEqualTo "k0" (kindArgFor Constraints.NotEqualTo),
      by decide, by decide⟩
  · exact ⟨"`k0` > 'v1'",
      parseConstraint_greaterThan "k0" (kindArgFor Constraints.GreaterThan),
      by decide, by decide⟩
  · exact ⟨"`k0` >= 'v1'",
      parseConstraint_greaterThanOrEqualTo "k0"
        (kindArgFor Constraints.GreaterThanOrEqualTo),
      by decide, by decide⟩
  · exact ⟨"`k0` < 'v1'",
      parseConstraint_lessThan "k0" (kindArgFor Constraints.LessThan),
      by decide, by decide⟩
  · exact ⟨"`k0` <= 'v1'",
      parseConstraint_lessThanOrEqualTo "k0"
        (kindArgFor Constraints.LessThanOrEqualTo),
      by decide, by decide⟩
  · exact ⟨"`k0` IS NOT NULL",
      parseConstraint_exists "k0" (kindArgFor Constraints.Exists),
      by decide, by decide⟩
  · exact ⟨"`k0` IN ('v1', 'v2')",
      parseConstraint_containedIn "k0" (kindArgFor Constraints.ContainedIn),
      by decide, by decide⟩
  · exact ⟨"`k0` NOT IN ('v1', 'v2')",
      parseConstraint_notContainedIn "k0"
        (kindArgFor Constraints.NotContainedIn),
      by decide, by decide⟩
  · exact ⟨"(`k0` IS NULL OR `k0` IN ('v1', 'v2'))",
      parseConstraint_containedInOrDoesNotExist "k0"
        (kindArgFor Constraints.ContainedInOrDoesNotExist),
      by decide, by decide⟩
  · exact ⟨"`k0` LIKE 'v1%'",
      parseConstraint_startsWith "k0" (kindArgFor Constraints.StartsWith),
      by decide, by decide⟩
  · exact ⟨"`k0` LIKE '%v1'",
      parseConstraint_endsWith "k0" (kindArgFor Constraints.EndsWith),
      by decide, by decide⟩
  · exact ⟨"`k0` LIKE '%v1%'",
      parseConstraint_contains "k0" (kindArgFor Constraints.Contains),
      by decide, by decide⟩
  · exact ⟨"(`k0` LIKE '%v1%' OR `k0` LIKE '%v2%')",
      parseConstraint_containsEither "k0"
        (kindArgFor Constraints.ContainsEither),
      by decide, by decide⟩
  · exact ⟨"(`k0` LIKE '%v1%' AND `k0` LIKE '%v2%')",
      parseConstraint_containsAll "k0" (kindArgFor Constraints.ContainsAll),
      by decide, by decide⟩
  · refine ⟨"`k0` IN (SELECT `User`.`id` AS `id` FROM `users` AS `User`  WHERE )",
      (parseConstraint_foundIn "k0" (kindArgFor Constraints.FoundIn)).trans ?_,
      by decide, by decide⟩
    show (subqueryEscape c6SubQ1 >>= fun s =>
      Except.ok (escapeKey "k0" false ++ " IN (" ++ s ++ ")")) = _
    rw [c6SubQ1_compiled]
    rfl
  · refine ⟨"(`k0` IN (SELECT `User`.`id` AS `id` FROM `users` AS `User`  WHERE ) OR `k0` IN (SELECT `Tag`.`id` AS `id` FROM `tags` AS `Tag`  WHERE ))",
      (parseConstraint_foundInEither "k0" [c6SubQ1, c6SubQ2]).trans ?_,
      by decide, by decide⟩
    rw [foundInFrags_cons, c6SubQ1_compiled, foundInFrags_cons,
      c6SubQ2_compiled, foundInFrags_nil]
    rfl
  · refine ⟨"(`k0` IN (SELECT `User`.`id` AS `id` FROM `users` AS `User`  WHERE ) AND `k0` IN (SELECT `Tag`.`id` AS `id` FROM `tags` AS `Tag`  WHERE ))",
      (parseConstraint_foundInAll "k0" [c6SubQ1, c6SubQ2]).trans ?_,
      by decide, by decide⟩
    rw [foundInFrags_cons, c6SubQ1_compiled, foundInFrags_cons,
      c6SubQ2_compiled, foundInFrags_nil]
    rfl
  · refine ⟨"`k0` NOT IN (SELECT `User`.`id` AS `id` FROM `users` AS `User`  WHERE )",
      (parseConstraint_notFoundIn "k0" (kindArgFor Constraints.NotFoundIn)).trans ?_,
      by decide, by decide⟩
    show (subqueryEscape c6SubQ1 >>= fun s =>
      Except.ok (escapeKey "k0" false ++ " NOT IN (" ++ s ++ ")")) = _
    rw [c6SubQ1_compiled]
    rfl
  · refine ⟨"(`k0` NOT IN (SELECT `User`.`id` AS `id` FROM `users` AS `User`  WHERE ) AND `k0` NOT IN (SELECT `Tag`.`id` AS `id` FROM `tags` AS `Tag`  WHERE ))",
      (parseConstraint_notFoundInEither "k0" [c6SubQ1, c6SubQ2]).trans ?_,
      by decide, by decide⟩
    rw [foundInFrags_cons, c6SubQ1_compiled, foundInFrags_cons,
      c6SubQ2_compiled, foundInFrags_nil]
    rfl

/-- Witness for C6 at the `equalTo` kind. -/
theorem C6_witness :
    ∃ frag, parseConstraint "k0" Constraints.EqualTo
        (kindArgFor Constraints.EqualTo) = .ok frag ∧
      countOccs frag "`k0`" = expectedKeyOccs Constraints.EqualTo ∧
      ∀ mv ∈ valMarkersFor Constraints.EqualTo, countOccs frag mv = 1 :=
  C6_fragment_occurrences Constraints.EqualTo (by decide)

/-- `subqueryEscape` on a stored query's compiled-options value unfolds
to the find clause of that query's four find fields. -/
theorem subqueryEscape_queryValue (q : QueryState) :
    subqueryEscape (Query.queryValue q) =
      getFindClause (q.classSchema.source, q.classSchema.className)
        (getColumnsFrom q.classSchema.className (Query.getSelection q)
          q.classSchema.relations)
        (getRelationsFrom (Query.getSelection q) q.classSchema.relations)
        (getConstraintsFrom q.constraints) :=
  subqueryEscape_vquery (q.classSchema.source, q.classSchema.className)
    (getColumnsFrom q.classSchema.className (Query.getSelection q)
      q.classSchema.relations)
    (getRelationsFrom (Query.getSelection q) q.classSchema.relations)
    (getConstraintsFrom q.constraints)

/-- C7 counterexample: `toSubquery` does not always narrow to a single
column — included relation keys are appended regardless of selection
state, so a query with `include('author')` narrowed by
`toSubquery('title')` still projects three columns (title plus the two
author columns), not one. -/
theorem C7_counterexample :
    ((Query.includeKeys (newQuery authorPostSchema)
        [.str "author"]).toOption.bind
      (fun q => (Query.toSubquery q "title").toOption)).map
      (fun sub => (getColumnsFrom sub.classSchema.className
        (Query.getSelection sub) sub.classSchema.relations).length) =
      some 3 ∧ (3 : Nat) ≠ 1 := by
  exact ⟨rfl, by decide⟩

/-- C7 (amended): provided the inner query includes no relations (and
its select key is a declared non-relation key), `foundIn('x', y, q)`
narrows `q` to the single-column projection on `y`, and the registered
constraint compiles to the fragment `x IN (S)` where `S` is the full
compiled SELECT of the narrowed query projecting exactly that one
column. -/
theorem C7_foundIn_single_column_subquery (outer inner : QueryState)
    (key y : String)
    (houter : outer.classSchema.has key = true)
    (hinner : inner.classSchema.has y = true)
    (hnorel : inner.classSchema.relations.find? (fun r => r.name = y) = none)
    (hnoinc : inner.included = [])
    (w : List String)
    (hok : parseEntries (getConstraintsFrom inner.constraints) = .ok w) :
    ∃ S,
      Query.toSubquery inner y = .ok { inner with selection := [y] } ∧
      getColumnsFrom inner.classSchema.className
          (Query.getSelection { inner with selection := [y] })
          inner.classSchema.relations =
        [(inner.classSchema.className ++ "." ++ y, y)] ∧
      Query.foundIn outer key y inner =
        .ok { outer with constraints := (outer.constraints.set key Constraints.FoundIn (Query.queryValue { inner with selection := [y] })) } ∧
      getFindClause (inner.classSchema.source, inner.classSchema.className)
          [(inner.classSchema.className ++ "." ++ y, y)] []
          (getConstraintsFrom inner.constraints) = .ok S ∧
      parseConstraint key Constraints.FoundIn
          (Query.queryValue { inner with selection := [y] }) =
        .ok (escapeKey key false ++ " IN (" ++ S ++ ")") := by
  have hsub : Query.toSubquery inner y = .ok { inner with selection := [y] } := by
    simp [Query.toSubquery, Query.select, Query.selKeyList, Query.selectLoop,
      hinner, except_bind_ok]
  have hcols : getColumnsFrom inner.classSchema.className
      (Query.getSelection { inner with selection := [y] })
      inner.classSchema.relations =
      [(inner.classSchema.className ++ "." ++ y, y)] := by
    simp [Query.getSelection, getColumnsFrom, hnoinc, hnorel]
  have hrels : getRelationsFrom
      (Query.getSelection { inner with selection := [y] })
      inner.classSchema.relations = [] := by
    simp [Query.getSelection, getRelationsFrom, hnoinc, hnorel]
  obtain ⟨S, hS⟩ : ∃ S,
      getFindClause (inner.classSchema.source, inner.classSchema.className)
        [(inner.classSchema.className ++ "." ++ y, y)] []
        (getConstraintsFrom inner.constraints) = .ok S :=
    ⟨_, by rw [getFindClause_eq, hok]; rfl⟩
  refine ⟨S, hsub, hcols, ?_, hS, ?_⟩
  · simp [Query.foundIn, hsub, Query.set, houter, except_bind_ok]
  · rw [parseConstraint_foundIn, subqueryEscape_queryValue]
    rw [show ({ inner with selection := [y] } : QueryState).classSchema =
      inner.classSchema from rfl]
    rw [show ({ inner with selection := [y] } : QueryState).constraints =
      inner.constraints from rfl]
    rw [hcols, hrels, hS]
    rfl

/-- Witness for C7: two fresh `Post` queries, `foundIn('x', 'title', q)`. -/
theorem C7_witness :
    ∃ S,
      Query.toSubquery (newQuery postSchema) "title" =
        .ok { newQuery postSchema with selection := ["title"] } ∧
      getColumnsFrom (newQuery postSchema).classSchema.className
          (Query.getSelection
            { newQuery postSchema with selection := ["title"] })
          (newQuery postSchema).classSchema.relations =
        [((newQuery postSchema).classSchema.className ++ "." ++ "title",
          "title")] ∧
      Query.foundIn (newQuery postSchema) "x" "title" (newQuery postSchema) =
        .ok { newQuery postSchema with constraints := ((newQuery postSchema).constraints.set "x" Constraints.FoundIn (Query.queryValue { newQuery postSchema with selection := ["title"] })) } ∧
      getFindClause ((newQuery postSchema).classSchema.source,
          (newQuery postSchema).classSchema.className)
          [((newQuery postSchema).classSchema.className ++ "." ++ "title",
            "title")] []
          (getConstraintsFrom (newQuery postSchema).constraints) = .ok S ∧
      parseConstraint "x" Constraints.FoundIn
          (Query.queryValue
            { newQuery postSchema with selection := ["title"] }) =
        .ok (escapeKey "x" false ++ " IN (" ++ S ++ ")") :=
  C7_foundIn_single_column_subquery (newQuery postSchema)
    (newQuery postSchema) "x" "title" rfl rfl rfl rfl [] parseEntries_nil

/-- The merged relation object always carries the just-assigned column. -/
theorem objSpread_find_self (prev : Option Value) (b : String) (v : Value) :
    (objSpread prev b v).find? (fun e => e.1 = b) = some (b, v) := by
  match prev with
  | none => simp [objSpread]
  | some (.vobj m) => exact find?_assocSet_self m b v
  | some .vnull => simp [objSpread]
  | some (.vint n) => simp [objSpread]
  | some (.vstr s) => simp [objSpread]
  | some (.vbool x) => simp [objSpread]
  | some (.vlist l) => simp [objSpread]
  | some (.vquery a c r e) => simp [objSpread]

/-- The row-mapper iteration splits over list concatenation. -/
theorem mapRowsAux_append (xs ys : List (String × Value)) (acc : KeyMap) :
    mapRowsAux acc (xs ++ ys) = mapRowsAux (mapRowsAux acc xs) ys := by
  induction xs generalizing acc with
  | nil => rfl
  | cons p xs ih =>
      obtain ⟨k, v⟩ := p
      by_cases hrel : Relation.isUsedBy k = true
      · simp [mapRowsAux, hrel, ih]
      · have hrel' : Relation.isUsedBy k = false := Bool.eq_false_iff.mpr hrel
        simp [mapRowsAux, hrel', ih]

/-- Frame: iterating entries that neither use a top-level key nor nest
into it leaves that key of the accumulator unchanged. -/
theorem mapRowsAux_get_frame (rest : List (String × Value)) (acc : KeyMap)
    (a : String)
    (h1 : ∀ p ∈ rest, Relation.isUsedBy p.1 = false → p.1 ≠ a)
    (h2 : ∀ p ∈ rest, Relation.isUsedBy p.1 = true →
      (Relation.parseKey p.1).1 ≠ a) :
    (mapRowsAux acc rest).get a = acc.get a := by
  induction rest generalizing acc with
  | nil => rfl
  | cons p rest ih =>
      obtain ⟨k, v⟩ := p
      by_cases hrel : Relation.isUsedBy k = true
      · have hne : (Relation.parseKey k).1 ≠ a :=
          h2 (k, v) (List.mem_cons_self _ _) hrel
        have step : mapRowsAux acc ((k, v) :: rest) =
            mapRowsAux (acc.set (Relation.parseKey k).1
              (.vobj (objSpread (acc.get (Relation.parseKey k).1)
                (Relation.parseKey k).2 v))) rest := by
          simp [mapRowsAux, hrel]
        rw [step, ih _ (fun q hq => h1 q (List.mem_cons_of_mem _ hq))
          (fun q hq => h2 q (List.mem_cons_of_mem _ hq))]
        exact KeyMap.get_set_ne _ _ _ _ (Ne.symm hne)
      · have hrel' : Relation.isUsedBy k = false := Bool.eq_false_iff.mpr hrel
        have hne : k ≠ a := h1 (k, v) (List.mem_cons_self _ _) hrel'
        have step : mapRowsAux acc ((k, v) :: rest) =
            mapRowsAux (acc.set k v) rest := by
          simp [mapRowsAux, hrel']
        rw [step, ih _ (fun q hq => h1 q (List.mem_cons_of_mem _ hq))
          (fun q hq => h2 q (List.mem_cons_of_mem _ hq))]
        exact KeyMap.get_set_ne _ _ _ _ (Ne.symm hne)

/-- Preservation: once a nested relation object holds a column binding,
later entries that do not rewrite that same (alias, column) pair keep the
binding (same-alias entries merge into the object). -/
theorem mapRowsAux_get_obj_preserved (rest : List (String × Value))
    (acc : KeyMap) (a b : String) (v0 : Value)
    (hacc : ∃ m, acc.get a = some (.vobj m) ∧
      m.find? (fun e => e.1 = b) = some (b, v0))
    (h1 : ∀ p ∈ rest, Relation.isUsedBy p.1 = false → p.1 ≠ a)
    (h2 : ∀ p ∈ rest, Relation.isUsedBy p.1 = true →
      (Relation.parseKey p.1).1 = a → (Relation.parseKey p.1).2 ≠ b) :
    ∃ m', (mapRowsAux acc rest).get a = some (.vobj m') ∧
      m'.find? (fun e => e.1 = b) = some (b, v0) := by
  induction rest generalizing acc with
  | nil => exact hacc
  | cons p rest ih =>
      obtain ⟨k, v⟩ := p
      by_cases hrel : Relation.isUsedBy k = true
      · have step : mapRowsAux acc ((k, v) :: rest) =
            mapRowsAux (acc.set (Relation.parseKey k).1
              (.vobj (objSpread (acc.get (Relation.parseKey k).1)
                (Relation.parseKey k).2 v))) rest := by
          simp [mapRowsAux, hrel]
        rw [step]
        by_cases ha : (Relation.parseKey k).1 = a
        · -- same alias: the nested object is merged, binding b preserved
          have hb : (Relation.parseKey k).2 ≠ b :=
            h2 (k, v) (List.mem_cons_self _ _) hrel ha
          obtain ⟨m, hm1, hm2⟩ := hacc
          refine ih _ ⟨assocSet m (Relation.parseKey k).2 v, ?_, ?_⟩
            (fun q hq => h1 q (List.mem_cons_of_mem _ hq))
            (fun q hq => h2 q (List.mem_cons_of_mem _ hq))
          · rw [ha, KeyMap.get_set_self, hm1]
            rfl
          · rw [find?_assocSet_ne m _ b v (Ne.symm hb)]
            exact hm2
        · refine ih _ ?_ (fun q hq => h1 q (List.mem_cons_of_mem _ hq))
            (fun q hq => h2 q (List.mem_cons_of_mem _ hq))
          obtain ⟨m, hm1, hm2⟩ := hacc
          exact ⟨m, by rw [KeyMap.get_set_ne _ _ _ _ (Ne.symm ha)]; exact hm1, hm2⟩
      · have hrel' : Relation.isUsedBy k = false := Bool.eq_false_iff.mpr hrel
        have hne : k ≠ a := h1 (k, v) (List.mem_cons_self _ _) hrel'
        have step : mapRowsAux acc ((k, v) :: rest) =
            mapRowsAux (acc.set k v) rest := by
          simp [mapRowsAux, hrel']
        rw [step]
        refine ih _ ?_ (fun q hq => h1 q (List.mem_cons_of_mem _ hq))
          (fun q hq => h2 q (List.mem_cons_of_mem _ hq))
        obtain ⟨m, hm1, hm2⟩ := hacc
        exact ⟨m, by rw [KeyMap.get_set_ne _ _ _ _ (Ne.symm hne)]; exact hm1, hm2⟩

/-- C9: for every raw result row (with unique, well-formed column names
whose relation aliases do not collide with plain column names), the row
mapper places each relation-prefixed column into the nested object stored
under its alias, and each unprefixed column directly onto the top-level
KeyMap. -/
theorem C9_mapRows_nesting (row : List (String × Value))
    (hnodup : (row.map Prod.fst).Nodup)
    (hinj : ∀ p ∈ row, ∀ q ∈ row, Relation.isUsedBy p.1 = true →
      Relation.isUsedBy q.1 = true →
      Relation.parseKey p.1 = Relation.parseKey q.1 → p.1 = q.1)
    (hdisj : ∀ p ∈ row, ∀ q ∈ row, Relation.isUsedBy p.1 = false →
      Relation.isUsedBy q.1 = true → p.1 ≠ (Relation.parseKey q.1).1) :
    (∀ p ∈ row, Relation.isUsedBy p.1 = false →
      (mapRows row).get p.1 = some p.2) ∧
    (∀ p ∈ row, Relation.isUsedBy p.1 = true →
      ∃ m, (mapRows row).get (Relation.parseKey p.1).1 =
          some (.vobj m) ∧
        m.find? (fun e => e.1 = (Relation.parseKey p.1).2) =
          some ((Relation.parseKey p.1).2, p.2)) := by
  constructor
  · rintro ⟨k, v⟩ hp hrel
    obtain ⟨l1, l2, hsplit⟩ := List.append_of_mem hp
    subst hsplit
    have hmemp : ((k, v) : String × Value) ∈ l1 ++ (k, v) :: l2 :=
      List.mem_append.mpr (Or.inr (List.mem_cons_self _ _))
    have hnotin : k ∉ l2.map Prod.fst := by
      rw [List.map_append, List.map_cons] at hnodup
      exact (List.nodup_cons.mp (List.Nodup.of_append_right hnodup)).1
    have happ := mapRowsAux_append l1 ((k, v) :: l2) KeyMap.empty
    have step : mapRowsAux (mapRowsAux KeyMap.empty l1) ((k, v) :: l2) =
        mapRowsAux ((mapRowsAux KeyMap.empty l1).set k v) l2 := by
      simp [mapRowsAux, hrel]
    show (mapRows (l1 ++ (k, v) :: l2)).get k = some v
    rw [show mapRows (l1 ++ (k, v) :: l2) =
        mapRowsAux KeyMap.empty (l1 ++ (k, v) :: l2) from rfl,
      happ, step,
      mapRowsAux_get_frame l2 _ k
        (fun q hq _ => fun hc =>
          hnotin (hc ▸ List.mem_map_of_mem Prod.fst hq))
        (fun q hq hqrel =>
          Ne.symm (hdisj (k, v) hmemp q
            (List.mem_append.mpr (Or.inr (List.mem_cons_of_mem _ hq)))
            hrel hqrel)),
      KeyMap.get_set_self]
  · rintro ⟨k, v⟩ hp hrel
    obtain ⟨l1, l2, hsplit⟩ := List.append_of_mem hp
    subst hsplit
    have hmemp : ((k, v) : String × Value) ∈ l1 ++ (k, v) :: l2 :=
      List.mem_append.mpr (Or.inr (List.mem_cons_self _ _))
    have hnotin : k ∉ l2.map Prod.fst := by
      rw [List.map_append, List.map_cons] at hnodup
      exact (List.nodup_cons.mp (List.Nodup.of_append_right hnodup)).1
    have happ := mapRowsAux_append l1 ((k, v) :: l2) KeyMap.empty
    have step : mapRowsAux (mapRowsAux KeyMap.empty l1) ((k, v) :: l2) =
        mapRowsAux ((mapRowsAux KeyMap.empty l1).set (Relation.parseKey k).1
          (.vobj (objSpread ((mapRowsAux KeyMap.empty l1).get
            (Relation.parseKey k).1) (Relation.parseKey k).2 v))) l2 := by
      simp [mapRowsAux, hrel]
    show ∃ m, (mapRows (l1 ++ (k, v) :: l2)).get (Relation.parseKey k).1 =
        some (.vobj m) ∧
      m.find? (fun e => e.1 = (Relation.parseKey k).2) =
        some ((Relation.parseKey k).2, v)
    rw [show mapRows (l1 ++ (k, v) :: l2) =
        mapRowsAux KeyMap.empty (l1 ++ (k, v) :: l2) from rfl,
      happ, step]
    refine mapRowsAux_get_obj_preserved l2 _ _ _ v
      ⟨objSpread ((mapRowsAux KeyMap.empty l1).get (Relation.parseKey k).1)
        (Relation.parseKey k).2 v,
        KeyMap.get_set_self _ _ _, objSpread_find_self _ _ _⟩
      (fun q hq hqrel =>
        hdisj q (List.mem_append.mpr (Or.inr (List.mem_cons_of_mem _ hq)))
          (k, v) hmemp hqrel hrel)
      ?_
    intro q hq hqrel heq1 heq2
    have hpk : Relation.parseKey q.1 = Relation.parseKey k :=
      Prod.ext heq1 heq2
    have : q.1 = k :=
      hinj q (List.mem_append.mpr (Or.inr (List.mem_cons_of_mem _ hq)))
        (k, v) hmemp hqrel hrel hpk
    exact hnotin (this ▸ List.mem_map_of_mem Prod.fst hq)


/-- Witness for C9 at the specification's example row. -/
theorem C9_witness :
    mapRows [("id", Value.vint 1), ("name", Value.vstr "a"),
        ("author.id", Value.vint 2), ("author.name", Value.vstr "b")] =
      ⟨[("id", Value.vint 1), ("name", Value.vstr "a"),
        ("author", Value.vobj [("id", Value.vint 2),
          ("name", Value.vstr "b")])]⟩ ∧
    (mapRows [("id", Value.vint 1), ("name", Value.vstr "a"),
        ("author.id", Value.vint 2), ("author.name", Value.vstr "b")]).get
      "id" = some (.vint 1) ∧
    (∃ m, (mapRows [("id", Value.vint 1), ("name", Value.vstr "a"),
        ("author.id", Value.vint 2), ("author.name", Value.vstr "b")]).get
        "author" = some (.vobj m) ∧
      m.find? (fun e => e.1 = "id") = some ("id", .vint 2)) := by
  refine ⟨rfl, ?_, ?_⟩
  · exact (C9_mapRows_nesting
      [("id", Value.vint 1), ("name", Value.vstr "a"),
        ("author.id", Value.vint 2), ("author.name", Value.vstr "b")]
      (by decide) (by decide) (by decide)).1 ("id", .vint 1) (List.mem_cons_self _ _) rfl
  · exact (C9_mapRows_nesting
      [("id", Value.vint 1), ("name", Value.vstr "a"),
        ("author.id", Value.vint 2), ("author.name", Value.vstr "b")]
      (by decide) (by decide) (by decide)).2 ("author.id", .vint 2)
      (List.mem_cons_of_mem _ (List.mem_cons_of_mem _
        (List.mem_cons_self _ _))) rfl

/-- Witness for C3 at a concrete undeclared key. -/
theorem C3_witness :
    Query.set (newQuery postSchema) "foo" Constraints.GreaterThan
      (.vint 1) = .error .forbiddenOperation :=
  C3_undeclared_key_fails (newQuery postSchema) "foo"
    Constraints.GreaterThan (.vint 1) rfl

end WarpSpec
